import Mathlib

/-!
Verification of the RacePlanner track-processing and pacing engine.

The TypeScript source (src/utils/geoUtils.ts and its canonical variant) is
shallowly embedded here.  JavaScript numbers are modelled by exact rationals
(`ℚ`) for the pacing pipeline and by real numbers (`ℝ`) for the geodesic
helpers; JavaScript's total division is matched by Lean's total `/` on `ℚ`
(both never throw).  `Math.round` is `⌊x + 1/2⌋`, `x || y` on numbers is
"`y` if `x = 0` else `x`", and record lookup with `|| 0` is a summing fold.
-/

namespace RacePlanner

/-! ## Data model (src/types.ts) -/

/-- GPXPoint from src/types.ts.  The optional `time` field is never read by
any of the functions embedded below, so it is omitted. -/
structure GPXPoint where
  lat : ℚ
  lon : ℚ
  ele : ℚ
  distFromStart : ℚ
deriving Repr, DecidableEq

/-- Sector from src/types.ts. -/
structure Sector where
  id : ℕ
  startDist : ℚ
  endDist : ℚ
  elevationGain : ℚ
  elevationLoss : ℚ
  avgGradient : ℚ
  maxEle : ℚ
  minEle : ℚ
  points : List GPXPoint
deriving Repr, DecidableEq

/-- PlannedSector from src/types.ts (Sector plus plan fields). -/
structure PlannedSector where
  id : ℕ
  startDist : ℚ
  endDist : ℚ
  elevationGain : ℚ
  elevationLoss : ℚ
  avgGradient : ℚ
  maxEle : ℚ
  minEle : ℚ
  points : List GPXPoint
  combinedElevationChange : ℚ
  targetDurationSeconds : ℚ
  targetPaceSeconds : ℚ
  accumulatedTimeSeconds : ℚ
  hasAidStation : Bool
  fatigueLevel : ℤ
deriving Repr, DecidableEq

/-- AidStation from src/types.ts.  The string `id` field is never read by the
pacing engine and is omitted. -/
structure AidStation where
  distanceFromStart : ℚ
  penaltySeconds : ℚ
deriving Repr, DecidableEq

/-- UnitSystem from src/types.ts. -/
inductive UnitSystem where
  | metric
  | imperial
deriving Repr, DecidableEq

/-- KM_TO_MILES from src/utils/unitUtils.ts. -/
def KM_TO_MILES : ℚ := 0.621371

/-- Placeholder point (used only for out-of-range list indexing, which the
JavaScript source never performs on the paths modelled here). -/
def pt0 : GPXPoint := ⟨0, 0, 0, 0⟩

/-- Placeholder sector for out-of-range indexing. -/
def sector0 : Sector := ⟨0, 0, 0, 0, 0, 0, 0, 0, []⟩

/-- Placeholder planned sector for out-of-range indexing. -/
def planned0 : PlannedSector := ⟨0, 0, 0, 0, 0, 0, 0, 0, [], 0, 0, 0, 0, false, 0⟩

/-- JavaScript `Math.round`: round half toward positive infinity. -/
def jsRound (x : ℚ) : ℤ := Int.floor (x + 1/2)

/-- JavaScript `x || y` on two numbers (`0` is falsy; `NaN` does not arise in
the exact-arithmetic model). -/
def jsOr (x y : ℚ) : ℚ := if x = 0 then y else x

/-! ## Pacing engine (calculateRacePlan and its helpers) -/

/-- getMetabolicCost: Minetti-based metabolic cost multiplier from the
gradient expressed as a fraction. -/
def getMetabolicCost (grad : ℚ) : ℚ :=
  if grad ≥ 0 then
    1 + grad * 3.0 + grad * grad * 12
  else
    let g := |grad|
    if g < 0.15 then 1 - g * 2.0
    else if g < 0.25 then 0.7 + (g - 0.15) * 1.5
    else 0.85 + (g - 0.25) * 3.0

/-- getTechnicalityPenalty: roughness (oscillation beyond the net grade)
slows a sector. -/
def getTechnicalityPenalty (s : Sector) : ℚ :=
  let dist := s.endDist - s.startDist
  if dist = 0 then 0
  else
    let oscillation := (s.elevationGain + s.elevationLoss) / dist
    let netGrade := |s.avgGradient / 100|
    let noise := max 0 (oscillation - netGrade)
    noise * 0.5

/-- Aid-station distance converted to meters (`calculateRacePlan`, step 1). -/
def stationDistMeters (units : UnitSystem) (st : AidStation) : ℚ :=
  match units with
  | .metric => st.distanceFromStart * 1000
  | .imperial => st.distanceFromStart / KM_TO_MILES * 1000

/-- The containment test `as.distMeters > s.startDist && as.distMeters <= s.endDist`. -/
def stationInSector (units : UnitSystem) (st : AidStation) (s : Sector) : Prop :=
  stationDistMeters units st > s.startDist ∧ stationDistMeters units st ≤ s.endDist

instance (units : UnitSystem) (st : AidStation) (s : Sector) :
    Decidable (stationInSector units st s) := by
  unfold stationInSector; infer_instance

/-- Total penalty of the aid stations falling inside one sector. -/
def sectorStopHere (units : UnitSystem) (aidStations : List AidStation) (s : Sector) : ℚ :=
  aidStations.foldl (fun acc st => if stationInSector units st s then acc + st.penaltySeconds else acc) 0

/-- The `stationAssignments` record: the value stored under key `sid`
(`stationAssignments[sid] || 0`).  The record is filled by iterating over all
sectors, so sectors sharing an id contribute to the same key. -/
def stationAssignments (sectors : List Sector) (units : UnitSystem)
    (aidStations : List AidStation) (sid : ℕ) : ℚ :=
  sectors.foldl (fun acc s => if s.id = sid then acc + sectorStopHere units aidStations s else acc) 0

/-- `totalStoppedTime`: every contained (sector, station) pair contributes its
penalty. -/
def totalStoppedTime (sectors : List Sector) (units : UnitSystem)
    (aidStations : List AidStation) : ℚ :=
  sectors.foldl (fun acc s => acc + sectorStopHere units aidStations s) 0

/-- `runBudget = Math.max(0, targetTimeSeconds - totalStoppedTime)`. -/
def runBudget (sectors : List Sector) (targetTimeSeconds : ℚ) (units : UnitSystem)
    (aidStations : List AidStation) : ℚ :=
  max 0 (targetTimeSeconds - totalStoppedTime sectors units aidStations)

/-- `totalDist = sectors[sectors.length - 1].endDist`. -/
def totalDistOf (sectors : List Sector) : ℚ :=
  ((sectors.getLast?).map (·.endDist)).getD 0

/-- `avgPacePerMeter = runBudget / totalDist`. -/
def avgPacePerMeter (sectors : List Sector) (targetTimeSeconds : ℚ) (units : UnitSystem)
    (aidStations : List AidStation) : ℚ :=
  runBudget sectors targetTimeSeconds units aidStations / totalDistOf sectors

/-- Pass 1: `costMultiplier` of a sector (metabolic cost, technicality,
altitude penalty above 2000 m). -/
def costMultiplier (s : Sector) : ℚ :=
  let base := getMetabolicCost (s.avgGradient / 100) + getTechnicalityPenalty s
  if s.minEle > 2000 then base + (s.minEle - 2000) / 10000 else base

/-- Pass 1: `effortUnits = dist * costMultiplier`. -/
def effortUnits (s : Sector) : ℚ :=
  (s.endDist - s.startDist) * costMultiplier s

/-- Pass 1: `totalEffortUnits`. -/
def totalEffortUnits (sectors : List Sector) : ℚ :=
  sectors.foldl (fun acc s => acc + effortUnits s) 0

/-- Pass 2: `accumulatedFatigueLoad` after processing sector `i` (the running
sum is bumped before `relativeFatigue` is read). -/
def cumEffort (sectors : List Sector) (i : ℕ) : ℚ :=
  (sectors.take (i+1)).foldl (fun acc s => acc + effortUnits s) 0

/-- Pass 2: `relativeFatigue = accumulatedFatigueLoad / totalEffortUnits`. -/
def relativeFatigue (sectors : List Sector) (i : ℕ) : ℚ :=
  cumEffort sectors i / totalEffortUnits sectors

/-- Pass 2: the conservative strategy curve, selected by
`progress = s.endDist / totalDist`. -/
def strategyOf (totalDist : ℚ) (s : Sector) : ℚ :=
  let progress := s.endDist / totalDist
  if progress < 0.10 then 0.96
  else if progress < 0.30 then 1.00
  else if progress < 0.85 then 1.02
  else 1.01

/-- Pass 2: the late-race fatigue factor. -/
def fatigueOf (rf : ℚ) : ℚ :=
  if rf > 0.80 then 1.0 - (rf - 0.80) * 0.25 else 1.0

/-- Pass 2: `performanceFactor = strategy * fatigue` of the sector at index `i`. -/
def performanceFactor (sectors : List Sector) (i : ℕ) : ℚ :=
  strategyOf (totalDistOf sectors) (sectors.getD i sector0) *
    fatigueOf (relativeFatigue sectors i)

/-- Pass 2 output: the list of raw performance factors. -/
def rawFactors (sectors : List Sector) : List ℚ :=
  (List.range sectors.length).map (performanceFactor sectors)

/-- Pass 3: trend-locking smoothing of the performance factors.  `arr[i-1]?.x
|| curr` is modelled by `jsOr` (with the `i = 0` out-of-range case giving
`curr`), exactly as the JavaScript evaluates it. -/
def smoothedFactor (fs : List ℚ) (i : ℕ) : ℚ :=
  let n := fs.length
  let curr := fs.getD i 0
  let prevOr : ℚ := if i = 0 then curr else jsOr (fs.getD (i-1) 0) curr
  if i = n - 1 then prevOr
  else if i = n - 2 then prevOr * 0.7 + curr * 0.3
  else
    let nextOr : ℚ := if i + 1 < n then jsOr (fs.getD (i+1) 0) curr else curr
    prevOr * 0.2 + curr * 0.6 + nextOr * 0.2

/-- Pass 4: `allocatedWeight = effortUnits / smoothedFactor` of sector `i`. -/
def allocatedWeight (sectors : List Sector) (i : ℕ) : ℚ :=
  effortUnits (sectors.getD i sector0) / smoothedFactor (rawFactors sectors) i

/-- Pass 4: `totalAllocatedWeight` (the `reduce` over `weightedSectors`). -/
def totalAllocatedWeight (sectors : List Sector) : ℚ :=
  ((List.range sectors.length).map (allocatedWeight sectors)).sum

/-- Pass 4: the proportional (pre-clamp) running time
`runBudget * (allocatedWeight / totalAllocatedWeight)` of sector `i`. -/
def sectorRunTimeRaw (sectors : List Sector) (targetTimeSeconds : ℚ) (units : UnitSystem)
    (aidStations : List AidStation) (i : ℕ) : ℚ :=
  runBudget sectors targetTimeSeconds units aidStations *
    (allocatedWeight sectors i / totalAllocatedWeight sectors)

/-- Pass 4: the running time of sector `i` after the safety clamp.  Both
`if`s of the source compare the original `calculatedPace`, and the second
assignment overwrites the first, which the two sequential `if`s reproduce. -/
def sectorRunTimeClamped (sectors : List Sector) (targetTimeSeconds : ℚ) (units : UnitSystem)
    (aidStations : List AidStation) (i : ℕ) : ℚ :=
  let s := sectors.getD i sector0
  let distMeters := s.endDist - s.startDist
  let raw := sectorRunTimeRaw sectors targetTimeSeconds units aidStations i
  let calculatedPace := raw / distMeters
  let isExtremeTerrain := |s.avgGradient| > 15
  if isExtremeTerrain then raw
  else
    let a := avgPacePerMeter sectors targetTimeSeconds units aidStations
    let minPaceAllowed := a * 0.4
    let maxPaceAllowed := a * 3.0
    let rt1 := if calculatedPace < minPaceAllowed then minPaceAllowed * distMeters else raw
    let rt2 := if calculatedPace > maxPaceAllowed then maxPaceAllowed * distMeters else rt1
    rt2

/-- The final map body: builds the `PlannedSector` for one sector and threads
the `accumulatedTime` mutable through as explicit state.  Sectors under one
meter are the special-cased degenerate branch of the source. -/
def mkPlanned (sectors : List Sector) (targetTimeSeconds : ℚ) (units : UnitSystem)
    (aidStations : List AidStation) (s : Sector) (i : ℕ) (acc : ℚ) : PlannedSector × ℚ :=
  let dist := s.endDist - s.startDist
  if dist < 1 then
    ({ id := s.id, startDist := s.startDist, endDist := s.endDist,
       elevationGain := 0, elevationLoss := 0, avgGradient := 0,
       maxEle := s.maxEle, minEle := s.minEle, points := s.points,
       combinedElevationChange := 0, targetDurationSeconds := 0,
       targetPaceSeconds := 0, accumulatedTimeSeconds := acc,
       hasAidStation := false, fatigueLevel := 100 }, acc)
  else
    let sectorRunTime := sectorRunTimeClamped sectors targetTimeSeconds units aidStations i
    let stopTime := stationAssignments sectors units aidStations s.id
    let totalTime := sectorRunTime + stopTime
    let acc' := acc + totalTime
    ({ id := s.id, startDist := s.startDist, endDist := s.endDist,
       elevationGain := s.elevationGain, elevationLoss := s.elevationLoss,
       avgGradient := s.avgGradient, maxEle := s.maxEle, minEle := s.minEle,
       points := s.points,
       combinedElevationChange := s.elevationGain + s.elevationLoss,
       targetDurationSeconds := totalTime,
       targetPaceSeconds := sectorRunTime / (dist / 1000),
       accumulatedTimeSeconds := acc',
       hasAidStation := decide (stopTime > 0),
       fatigueLevel := min 100 (jsRound (relativeFatigue sectors i * 100)) }, acc')

/-- The final `map` of `calculateRacePlan`, with the mutable accumulator as
explicit state. -/
def planLoop (sectors : List Sector) (targetTimeSeconds : ℚ) (units : UnitSystem)
    (aidStations : List AidStation) : List Sector → ℕ → ℚ → List PlannedSector
  | [], _, _ => []
  | s :: rest, i, acc =>
    let pa := mkPlanned sectors targetTimeSeconds units aidStations s i acc
    pa.1 :: planLoop sectors targetTimeSeconds units aidStations rest (i+1) pa.2

/-- calculateRacePlan: the four-pass pacing engine of geoUtils. -/
def calculateRacePlan (sectors : List Sector) (targetTimeSeconds : ℚ)
    (aidStations : List AidStation) (units : UnitSystem) : List PlannedSector :=
  if sectors = [] then []
  else planLoop sectors targetTimeSeconds units aidStations sectors 0 0

/-! ## Elevation smoothing (smoothElevation) -/

/-- smoothElevation: the source copies the array with a spread
(`const smoothed = [...points]`), which copies the *references*: writing
`smoothed[i].ele` mutates the very object `points[i]` still aliases, so at
step `i` the `prev` read through `points[i-1]` already sees the value written
at step `i-1`.  A single in-place array threaded through the loop models that
aliasing exactly. -/
def smoothElevation (points : List GPXPoint) : List GPXPoint :=
  if points.length < 3 then points
  else
    (List.range (points.length - 2)).foldl
      (fun arr j =>
        let i := j + 1
        let prev := (arr.getD (i-1) pt0).ele
        let curr := (arr.getD i pt0).ele
        let next := (arr.getD (i+1) pt0).ele
        arr.set i { arr.getD i pt0 with ele := prev * 0.2 + curr * 0.6 + next * 0.2 })
      points

/-- The elevation smoothing as claim C4 describes it: a 3-tap weighted moving
average (0.2/0.6/0.2) of the original, un-smoothed elevations, first and last
points untouched.  This is the comparison definition written from the claim's
words, to be diffed against `smoothElevation` above. -/
def smoothElevationSpec (points : List GPXPoint) : List GPXPoint :=
  if points.length < 3 then points
  else
    points.mapIdx (fun i p =>
      if i = 0 ∨ i = points.length - 1 then p
      else { p with ele := (points.getD (i-1) pt0).ele * 0.2 + p.ele * 0.6 +
                             (points.getD (i+1) pt0).ele * 0.2 })

/-! ## Sector generation (generateSectors) -/

/-- getInterpolatedPoint (the sector-generation interpolation helper). -/
def getInterpolatedPoint (p1 p2 : GPXPoint) (targetDist : ℚ) : GPXPoint :=
  let totalDist := p2.distFromStart - p1.distFromStart
  let ratio := if totalDist = 0 then 0 else (targetDist - p1.distFromStart) / totalDist
  { lat := p1.lat + (p2.lat - p1.lat) * ratio
    lon := p1.lon + (p2.lon - p1.lon) * ratio
    ele := p1.ele + (p2.ele - p1.ele) * ratio
    distFromStart := targetDist }

/-- The cursor-advancing `while` loop of generateSectors:
`while (currentPIdx < points.length - 1 && points[currentPIdx + 1].distFromStart <= startDist) currentPIdx++`. -/
def advanceCursor (points : List GPXPoint) (startDist : ℚ) (cur : ℕ) : ℕ :=
  if h : cur < points.length - 1 ∧ (points.getD (cur+1) pt0).distFromStart ≤ startDist then
    advanceCursor points startDist (cur+1)
  else cur
termination_by points.length - 1 - cur
decreasing_by
  simp_wf
  omega

/-- The interior-scan `while` loop of generateSectors: collects the points
strictly inside `(startDist, endDist)` and reports the index at which the
loop stopped (`break` on `distFromStart >= endDist`, or `points.length`). -/
def scanPoints (points : List GPXPoint) (startDist endDist : ℚ) (scanIdx : ℕ) :
    List GPXPoint × ℕ :=
  if h : scanIdx < points.length then
    let p := points.getD scanIdx pt0
    let pushed : List GPXPoint :=
      if p.distFromStart > startDist ∧ p.distFromStart < endDist then [p] else []
    if p.distFromStart ≥ endDist then (pushed, scanIdx)
    else
      let rest := scanPoints points startDist endDist (scanIdx + 1)
      (pushed ++ rest.1, rest.2)
  else ([], scanIdx)
termination_by points.length - scanIdx
decreasing_by
  simp_wf
  omega

/-- The point list of one sector: start boundary (exact or interpolated),
interior points, end boundary (exact, interpolated, or the final track
point), together with the updated cursor for the next sector. -/
def buildSectorPoints (points : List GPXPoint) (startDist endDist : ℚ) (cur0 : ℕ) :
    List GPXPoint × ℕ :=
  let cur := advanceCursor points startDist cur0
  let len := points.length
  let firstPart : List GPXPoint :=
    if |(points.getD cur pt0).distFromStart - startDist| < 0.1 then
      [points.getD cur pt0]
    else if cur < len - 1 then
      [getInterpolatedPoint (points.getD cur pt0) (points.getD (cur+1) pt0) startDist]
    else []
  let scanned := scanPoints points startDist endDist cur
  let scanIdx := scanned.2
  let lastPart : List GPXPoint :=
    if scanIdx < len ∧ scanIdx > 0 then
      (if |(points.getD scanIdx pt0).distFromStart - endDist| < 0.1 then
        [points.getD scanIdx pt0]
      else
        [getInterpolatedPoint (points.getD (scanIdx-1) pt0) (points.getD scanIdx pt0) endDist])
    else if scanIdx = len then [points.getD (len-1) pt0]
    else []
  (firstPart ++ scanned.1 ++ lastPart, cur)

/-- Elevation gain of a point list (sum of positive consecutive deltas). -/
def gainOf (pts : List GPXPoint) : ℚ :=
  ((pts.zip pts.tail).map (fun q => q.2.ele - q.1.ele)).foldl
    (fun g d => if d > 0 then g + d else g) 0

/-- Elevation loss of a point list (sum of |negative consecutive deltas|). -/
def lossOf (pts : List GPXPoint) : ℚ :=
  ((pts.zip pts.tail).map (fun q => q.2.ele - q.1.ele)).foldl
    (fun l d => if d > 0 then l else l + |d|) 0

/-- Maximum elevation: the `-Infinity` running maximum, reset to `0` if the
list is empty (`if (max === -Infinity) max = 0`). -/
def maxEleOf (pts : List GPXPoint) : ℚ :=
  match pts with
  | [] => 0
  | p :: rest => rest.foldl (fun m q => if q.ele > m then q.ele else m) p.ele

/-- Minimum elevation, symmetric to `maxEleOf`. -/
def minEleOf (pts : List GPXPoint) : ℚ :=
  match pts with
  | [] => 0
  | p :: rest => rest.foldl (fun m q => if q.ele < m then q.ele else m) p.ele

/-- One iteration of the generateSectors `for` loop: builds the sector with
1-based id `i + 1` and returns the updated cursor. -/
def mkSector (points : List GPXPoint) (sectorSize totalDist : ℚ) (i : ℕ) (cur0 : ℕ) :
    Sector × ℕ :=
  let startDist := (i : ℚ) * sectorSize
  let endDist := min (((i : ℚ) + 1) * sectorSize) totalDist
  let built := buildSectorPoints points startDist endDist cur0
  let sectorPoints := built.1
  let distDiff := endDist - startDist
  let netChange := (sectorPoints.getLast?.map (·.ele)).getD 0 -
                     ((sectorPoints.head?.map (·.ele)).getD 0)
  let avgGradient := if distDiff > 0 then netChange / distDiff * 100 else 0
  ({ id := i + 1
     startDist := startDist
     endDist := endDist
     elevationGain := gainOf sectorPoints
     elevationLoss := lossOf sectorPoints
     avgGradient := avgGradient
     maxEle := maxEleOf sectorPoints
     minEle := minEleOf sectorPoints
     points := sectorPoints }, built.2)

/-- The generateSectors `for` loop, with the loop counter and mutable cursor
as explicit state: produces `count` sectors starting from index `i`. -/
def sectorsFrom (points : List GPXPoint) (sectorSize totalDist : ℚ) :
    ℕ → ℕ → ℕ → List Sector
  | 0, _, _ => []
  | count + 1, i, cur =>
    let sc := mkSector points sectorSize totalDist i cur
    sc.1 :: sectorsFrom points sectorSize totalDist count (i+1) sc.2

/-- `totalDist = points[points.length - 1].distFromStart` of generateSectors. -/
def lastPointDist (points : List GPXPoint) : ℚ :=
  ((points.getLast?).map (·.distFromStart)).getD 0

/-- `numSectors = Math.ceil(totalDist / sectorSize)` of generateSectors. -/
def numSectorsOf (points : List GPXPoint) (sectorSize : ℚ) : ℕ :=
  (Int.ceil (lastPointDist points / sectorSize)).toNat

/-- generateSectors: fixed-length distance slicing of the normalized track. -/
def generateSectors (points : List GPXPoint) (sectorSize : ℚ) : List Sector :=
  sectorsFrom points sectorSize (lastPointDist points) (numSectorsOf points sectorSize) 0 0

/-! ## Geodesy (getDistanceFromLatLonInMeters), over the reals -/

noncomputable section Geodesy

/-- deg2rad. -/
def deg2rad (deg : ℝ) : ℝ := deg * (Real.pi / 180)

/-- JavaScript `Math.atan2(y, x)`: the principal argument of `x + y·i`,
in `(-π, π]`, with `atan2 0 0 = 0`. -/
def atan2 (y x : ℝ) : ℝ := Complex.arg ⟨x, y⟩

/-- The haversine intermediate
`a = sin²(dLat/2) + cos(rad lat1)·cos(rad lat2)·sin²(dLon/2)`. -/
def haversineIntermediate (lat1 lon1 lat2 lon2 : ℝ) : ℝ :=
  let dLat := deg2rad (lat2 - lat1)
  let dLon := deg2rad (lon2 - lon1)
  Real.sin (dLat / 2) * Real.sin (dLat / 2) +
    Real.cos (deg2rad lat1) * Real.cos (deg2rad lat2) *
      (Real.sin (dLon / 2) * Real.sin (dLon / 2))

/-- getDistanceFromLatLonInMeters: haversine distance on a sphere of radius
6,371,000 m, via `c = 2·atan2(√a, √(1-a))`.  The source applies no clamp
to `a`. -/
def getDistanceFromLatLonInMeters (lat1 lon1 lat2 lon2 : ℝ) : ℝ :=
  let R : ℝ := 6371e3
  let a := haversineIntermediate lat1 lon1 lat2 lon2
  let c := 2 * atan2 (Real.sqrt a) (Real.sqrt (1 - a))
  R * c

/-- The distance computation as claim C3 words it: the haversine intermediate
clamped to `[0,1]` before the inverse trigonometric step.  Comparison
definition written from the claim, to be proved equal to the source's
`getDistanceFromLatLonInMeters`. -/
def getDistanceClampedSpec (lat1 lon1 lat2 lon2 : ℝ) : ℝ :=
  let R : ℝ := 6371e3
  let a := max 0 (min 1 (haversineIntermediate lat1 lon1 lat2 lon2))
  let c := 2 * atan2 (Real.sqrt a) (Real.sqrt (1 - a))
  R * c

end Geodesy

/-! ## General helper lemmas -/

theorem foldl_add_eq {α : Type} (f : α → ℚ) (l : List α) (c : ℚ) :
    l.foldl (fun a s => a + f s) c = c + (l.map f).sum := by
  induction l generalizing c with
  | nil => simp
  | cons s t ih => simp [ih, add_assoc]

theorem foldl_add_ite_eq {α : Type} (p : α → Prop) [DecidablePred p] (f : α → ℚ)
    (l : List α) (c : ℚ) :
    l.foldl (fun a s => if p s then a + f s else a) c =
      c + ((l.filter (fun s => decide (p s))).map f).sum := by
  induction l generalizing c with
  | nil => simp
  | cons s t ih =>
    by_cases h : p s <;> simp [List.filter_cons, h, ih, add_assoc]

/-! ## Unfolding and structure lemmas for calculateRacePlan -/

theorem calculateRacePlan_nil (t : ℚ) (st : List AidStation) (u : UnitSystem) :
    calculateRacePlan [] t st u = [] := by
  simp [calculateRacePlan]

theorem calculateRacePlan_cons (s : Sector) (l : List Sector) (t : ℚ)
    (st : List AidStation) (u : UnitSystem) :
    calculateRacePlan (s :: l) t st u = planLoop (s :: l) t u st (s :: l) 0 0 := by
  simp [calculateRacePlan]

theorem planLoop_length (sectors : List Sector) (t : ℚ) (u : UnitSystem)
    (st : List AidStation) :
    ∀ (l : List Sector) (i : ℕ) (acc : ℚ),
      (planLoop sectors t u st l i acc).length = l.length := by
  intro l
  induction l with
  | nil => intro i acc; rfl
  | cons s rest ih => intro i acc; simp [planLoop, ih]

theorem mkPlanned_snd_eq_field (sectors : List Sector) (t : ℚ) (u : UnitSystem)
    (st : List AidStation) (s : Sector) (i : ℕ) (acc : ℚ) :
    (mkPlanned sectors t u st s i acc).2 =
      (mkPlanned sectors t u st s i acc).1.accumulatedTimeSeconds := by
  by_cases h : s.endDist - s.startDist < 1 <;> simp [mkPlanned, h]

theorem mkPlanned_snd_acc (sectors : List Sector) (t : ℚ) (u : UnitSystem)
    (st : List AidStation) (s : Sector) (i : ℕ) (acc : ℚ) :
    (mkPlanned sectors t u st s i acc).2 =
      acc + (mkPlanned sectors t u st s i acc).1.targetDurationSeconds := by
  by_cases h : s.endDist - s.startDist < 1 <;> simp [mkPlanned, h]

theorem planLoop_acc_eq (sectors : List Sector) (t : ℚ) (u : UnitSystem)
    (st : List AidStation) :
    ∀ (l : List Sector) (i0 : ℕ) (acc : ℚ) (k : ℕ), k < l.length →
      ((planLoop sectors t u st l i0 acc).getD k planned0).accumulatedTimeSeconds =
        acc + (((planLoop sectors t u st l i0 acc).take (k+1)).map
                (·.targetDurationSeconds)).sum := by
  intro l
  induction l with
  | nil => intro i0 acc k hk; simp at hk
  | cons s rest ih =>
    intro i0 acc k hk
    match k with
    | 0 =>
      simp only [planLoop, List.getD_cons_zero, List.take_succ_cons, List.take_zero,
        List.map_cons, List.map_nil, List.sum_cons, List.sum_nil, add_zero]
      rw [← mkPlanned_snd_eq_field, mkPlanned_snd_acc]
    | k + 1 =>
      have ih' := ih (i0+1) ((mkPlanned sectors t u st s i0 acc).2) k (by simpa using hk)
      simp only [planLoop, List.getD_cons_succ, List.take_succ_cons, List.map_cons,
        List.sum_cons]
      rw [ih', mkPlanned_snd_acc]
      ring

theorem planLoop_get_shape (sectors : List Sector) (t : ℚ) (u : UnitSystem)
    (st : List AidStation) :
    ∀ (l : List Sector) (i0 : ℕ) (acc : ℚ) (k : ℕ), k < l.length →
      ∃ a, (planLoop sectors t u st l i0 acc).getD k planned0 =
        (mkPlanned sectors t u st (l.getD k sector0) (i0 + k) a).1 := by
  intro l
  induction l with
  | nil => intro i0 acc k hk; simp at hk
  | cons s rest ih =>
    intro i0 acc k hk
    match k with
    | 0 => exact ⟨acc, by simp [planLoop]⟩
    | k + 1 =>
      obtain ⟨a, ha⟩ := ih (i0 + 1) (mkPlanned sectors t u st s i0 acc).2 k (by simpa using hk)
      exact ⟨a, by simpa [planLoop, Nat.add_assoc, Nat.add_comm 1 k] using ha⟩

/-! ## Claim C10: accumulated time is the prefix sum of the durations -/

/-- C10: in the list returned by calculateRacePlan, the accumulatedTimeSeconds
of the planned sector at every index i equals the sum of targetDurationSeconds
over indices 0..i — including across the special-cased sectors of length under
one meter, which contribute a zero duration.  Holds for every input segment
list and configuration.  (Division in the embedding is rational division,
which is total, matching the never-throwing JavaScript arithmetic.) -/
theorem accumulatedTime_eq_duration_prefix_sum (sectors : List Sector) (t : ℚ)
    (st : List AidStation) (u : UnitSystem) (i : ℕ)
    (hi : i < (calculateRacePlan sectors t st u).length) :
    ((calculateRacePlan sectors t st u).getD i planned0).accumulatedTimeSeconds =
      (((calculateRacePlan sectors t st u).take (i+1)).map
        (·.targetDurationSeconds)).sum := by
  match sectors with
  | [] => rw [calculateRacePlan_nil] at hi; simp at hi
  | s :: l =>
    rw [calculateRacePlan_cons] at hi ⊢
    rw [planLoop_length] at hi
    simpa using planLoop_acc_eq (s :: l) t u st (s :: l) 0 0 i hi

/-- Witness for C10 at a concrete one-sector input. -/
theorem accumulatedTime_eq_duration_prefix_sum_witness :
    ((calculateRacePlan [⟨1, 0, 1000, 0, 0, 0, 0, 0, []⟩] 3600 [] .metric).getD 0
        planned0).accumulatedTimeSeconds =
      (((calculateRacePlan [⟨1, 0, 1000, 0, 0, 0, 0, 0, []⟩] 3600 [] .metric).take 1).map
        (·.targetDurationSeconds)).sum :=
  accumulatedTime_eq_duration_prefix_sum [⟨1, 0, 1000, 0, 0, 0, 0, 0, []⟩] 3600 [] .metric 0
    (by rw [calculateRacePlan_cons, planLoop_length]; simp)

/-! ## Claim C2: calculateRacePlan on an empty segment list -/

/-- C2 counterexample: at the concrete empty input the function returns the
ordinary value [] through its early-return guard.  The source body of
calculateRacePlan contains no throw at all, so the embedding is total; the
claimed EmptyTrackError is never raised. -/
theorem calculateRacePlan_empty_returns_value :
    calculateRacePlan [] 3600 [] .metric = [] := by
  simp [calculateRacePlan]

/-- C2 (amended): invoked with an empty segment list, calculateRacePlan does
not fail — it returns the empty plan for every configuration. -/
theorem calculateRacePlan_empty_plan (t : ℚ) (st : List AidStation) (u : UnitSystem) :
    calculateRacePlan [] t st u = [] := by
  simp [calculateRacePlan]

/-! ## Claim C4: elevation smoothing reads already-smoothed values -/

/-- C4: at the four-point track with elevations 0, 10, 0, 10 the code
produces smoothed elevations [0, 6, 16/5, 10], whereas the 3-tap weighted
moving average of the original, un-smoothed elevations (the stated intent,
`smoothElevationSpec`) gives [0, 6, 4, 10].  At index 2 the code's `prev`
read reaches the object already overwritten at index 1 (the spread
`[...points]` copies references, not points), computing 0.2·6 + 0.6·0 +
0.2·10 = 16/5 instead of 0.2·10 + 0.6·0 + 0.2·10 = 4. -/
theorem smoothElevation_reads_smoothed_neighbor :
    (smoothElevation [⟨0, 0, 0, 0⟩, ⟨0, 0, 10, 10⟩, ⟨0, 0, 0, 20⟩, ⟨0, 0, 10, 30⟩]).map
        (·.ele) = [0, 6, 16/5, 10] ∧
    (smoothElevationSpec [⟨0, 0, 0, 0⟩, ⟨0, 0, 10, 10⟩, ⟨0, 0, 0, 20⟩, ⟨0, 0, 10, 30⟩]).map
        (·.ele) = [0, 6, 4, 10] := by
  constructor
  · norm_num [smoothElevation, List.range_succ, List.foldl, List.set, pt0]
  · norm_num [smoothElevationSpec, List.mapIdx, List.mapIdx.go, pt0]

/-! ## Positivity facts about the effort and factor pipeline -/

theorem getD_mem_of_lt {α : Type} (l : List α) (d : α) (n : ℕ) (h : n < l.length) :
    l.getD n d ∈ l := by
  rw [List.getD_eq_getElem l d h]
  exact List.getElem_mem h

theorem getMetabolicCost_pos (g : ℚ) : 0 < getMetabolicCost g := by
  simp only [getMetabolicCost]
  split
  · rename_i hg
    nlinarith [mul_self_nonneg g]
  · rename_i hg
    push_neg at hg
    rw [abs_of_neg hg]
    split
    · linarith
    · split <;> linarith

theorem getTechnicalityPenalty_nonneg (s : Sector) : 0 ≤ getTechnicalityPenalty s := by
  simp only [getTechnicalityPenalty]
  split
  · exact le_refl 0
  · have := le_max_left (0 : ℚ) ((s.elevationGain + s.elevationLoss) / (s.endDist - s.startDist)
      - |s.avgGradient / 100|)
    nlinarith

theorem costMultiplier_pos (s : Sector) : 0 < costMultiplier s := by
  have h1 := getMetabolicCost_pos (s.avgGradient / 100)
  have h2 := getTechnicalityPenalty_nonneg s
  simp only [costMultiplier]
  split
  · rename_i h
    have : (0:ℚ) < (s.minEle - 2000) / 10000 := by
      apply div_pos (by linarith) (by norm_num)
    linarith
  · linarith

theorem effortUnits_pos (s : Sector) (hd : 1 ≤ s.endDist - s.startDist) :
    0 < effortUnits s := by
  unfold effortUnits
  exact mul_pos (by linarith) (costMultiplier_pos s)

theorem totalEffortUnits_eq (sectors : List Sector) :
    totalEffortUnits sectors = (sectors.map effortUnits).sum := by
  simpa using foldl_add_eq effortUnits sectors 0

theorem cumEffort_eq (sectors : List Sector) (i : ℕ) :
    cumEffort sectors i = ((sectors.take (i+1)).map effortUnits).sum := by
  simpa using foldl_add_eq effortUnits (sectors.take (i+1)) 0

theorem totalEffortUnits_pos (sectors : List Sector) (hne : sectors ≠ [])
    (hd : ∀ s ∈ sectors, 1 ≤ s.endDist - s.startDist) :
    0 < totalEffortUnits sectors := by
  rw [totalEffortUnits_eq]
  apply List.sum_pos
  · intro x hx
    obtain ⟨s, hs, rfl⟩ := List.mem_map.mp hx
    exact effortUnits_pos s (hd s hs)
  · simpa using hne

theorem cumEffort_pos (sectors : List Sector) (hne : sectors ≠ [])
    (hd : ∀ s ∈ sectors, 1 ≤ s.endDist - s.startDist) (i : ℕ) :
    0 < cumEffort sectors i := by
  rw [cumEffort_eq]
  apply List.sum_pos
  · intro x hx
    obtain ⟨s, hs, rfl⟩ := List.mem_map.mp hx
    exact effortUnits_pos s (hd s (List.mem_of_mem_take hs))
  · simp only [ne_eq, List.map_eq_nil, List.take_eq_nil_iff]
    push_neg
    exact ⟨by omega, hne⟩

theorem cumEffort_mono (sectors : List Sector)
    (hd : ∀ s ∈ sectors, 1 ≤ s.endDist - s.startDist) (i j : ℕ) (hij : i ≤ j) :
    cumEffort sectors i ≤ cumEffort sectors j := by
  rw [cumEffort_eq, cumEffort_eq]
  have hsplit : sectors.take (j+1) = sectors.take (i+1) ++ (sectors.drop (i+1)).take (j - i) := by
    rw [← List.take_add]
    congr 1
    omega
  rw [hsplit, List.map_append, List.sum_append, le_add_iff_nonneg_right]
  apply List.sum_nonneg
  intro x hx
  obtain ⟨s, hs, rfl⟩ := List.mem_map.mp hx
  have hmem : s ∈ sectors := List.mem_of_mem_drop (List.mem_of_mem_take hs)
  exact le_of_lt (effortUnits_pos s (hd s hmem))

theorem cumEffort_le_total (sectors : List Sector)
    (hd : ∀ s ∈ sectors, 1 ≤ s.endDist - s.startDist) (i : ℕ) :
    cumEffort sectors i ≤ totalEffortUnits sectors := by
  rw [cumEffort_eq, totalEffortUnits_eq]
  conv_rhs => rw [← List.take_append_drop (i+1) sectors]
  rw [List.map_append, List.sum_append, le_add_iff_nonneg_right]
  apply List.sum_nonneg
  intro x hx
  obtain ⟨s, hs, rfl⟩ := List.mem_map.mp hx
  exact le_of_lt (effortUnits_pos s (hd s (List.mem_of_mem_drop hs)))

theorem relativeFatigue_pos (sectors : List Sector) (hne : sectors ≠ [])
    (hd : ∀ s ∈ sectors, 1 ≤ s.endDist - s.startDist) (i : ℕ) :
    0 < relativeFatigue sectors i := by
  unfold relativeFatigue
  exact div_pos (cumEffort_pos sectors hne hd i) (totalEffortUnits_pos sectors hne hd)

theorem relativeFatigue_le_one (sectors : List Sector) (hne : sectors ≠ [])
    (hd : ∀ s ∈ sectors, 1 ≤ s.endDist - s.startDist) (i : ℕ) :
    relativeFatigue sectors i ≤ 1 := by
  unfold relativeFatigue
  rw [div_le_one (totalEffortUnits_pos sectors hne hd)]
  exact cumEffort_le_total sectors hd i

theorem relativeFatigue_mono (sectors : List Sector) (hne : sectors ≠ [])
    (hd : ∀ s ∈ sectors, 1 ≤ s.endDist - s.startDist) (i j : ℕ) (hij : i ≤ j) :
    relativeFatigue sectors i ≤ relativeFatigue sectors j := by
  unfold relativeFatigue
  exact (div_le_div_right (totalEffortUnits_pos sectors hne hd)).mpr
    (cumEffort_mono sectors hd i j hij)

theorem strategyOf_pos (totalDist : ℚ) (s : Sector) : 0 < strategyOf totalDist s := by
  simp only [strategyOf]
  split
  · norm_num
  · split
    · norm_num
    · split <;> norm_num

theorem fatigueOf_pos (rf : ℚ) (h : rf ≤ 1) : 0 < fatigueOf rf := by
  simp only [fatigueOf]
  split <;> [linarith; norm_num]

theorem performanceFactor_pos (sectors : List Sector) (hne : sectors ≠ [])
    (hd : ∀ s ∈ sectors, 1 ≤ s.endDist - s.startDist) (i : ℕ) :
    0 < performanceFactor sectors i := by
  unfold performanceFactor
  exact mul_pos (strategyOf_pos _ _)
    (fatigueOf_pos _ (relativeFatigue_le_one sectors hne hd i))

theorem rawFactors_length (sectors : List Sector) :
    (rawFactors sectors).length = sectors.length := by
  simp [rawFactors]

theorem rawFactors_getD (sectors : List Sector) (i : ℕ) (hi : i < sectors.length) :
    (rawFactors sectors).getD i 0 = performanceFactor sectors i := by
  simp [rawFactors, List.getD, List.getElem?_map, List.getElem?_range hi]

theorem jsOr_of_pos {x : ℚ} (y : ℚ) (hx : 0 < x) : jsOr x y = x := by
  simp [jsOr, ne_of_gt hx]

theorem smoothedFactor_pos (fs : List ℚ) (hpos : ∀ k, k < fs.length → 0 < fs.getD k 0)
    (i : ℕ) (hi : i < fs.length) : 0 < smoothedFactor fs i := by
  have hcurr := hpos i hi
  have hprev : 0 < (if i = 0 then fs.getD i 0 else jsOr (fs.getD (i-1) 0) (fs.getD i 0)) := by
    split
    · exact hcurr
    · rename_i h0
      rw [jsOr_of_pos _ (hpos (i-1) (by omega))]
      exact hpos (i-1) (by omega)
  simp only [smoothedFactor]
  split
  · exact hprev
  · split
    · linarith
    · have hnext : 0 < (if i + 1 < fs.length then jsOr (fs.getD (i+1) 0) (fs.getD i 0)
          else fs.getD i 0) := by
        split
        · rename_i h1
          rw [jsOr_of_pos _ (hpos (i+1) h1)]
          exact hpos (i+1) h1
        · exact hcurr
      linarith

theorem allocatedWeight_pos (sectors : List Sector) (hne : sectors ≠ [])
    (hd : ∀ s ∈ sectors, 1 ≤ s.endDist - s.startDist) (i : ℕ) (hi : i < sectors.length) :
    0 < allocatedWeight sectors i := by
  unfold allocatedWeight
  apply div_pos
  · exact effortUnits_pos _ (hd _ (getD_mem_of_lt sectors sector0 i hi))
  · apply smoothedFactor_pos
    · intro k hk
      rw [rawFactors_length] at hk
      rw [rawFactors_getD sectors k hk]
      exact performanceFactor_pos sectors hne hd k
    · rwa [rawFactors_length]

theorem totalAllocatedWeight_pos (sectors : List Sector) (hne : sectors ≠ [])
    (hd : ∀ s ∈ sectors, 1 ≤ s.endDist - s.startDist) :
    0 < totalAllocatedWeight sectors := by
  unfold totalAllocatedWeight
  apply List.sum_pos
  · intro x hx
    obtain ⟨k, hk, rfl⟩ := List.mem_map.mp hx
    exact allocatedWeight_pos sectors hne hd k (List.mem_range.mp hk)
  · simp only [ne_eq, List.map_eq_nil, List.range_eq_nil]
    intro h
    exact hne (List.length_eq_zero.mp h)

theorem sectorRunTimeRaw_nonneg (sectors : List Sector) (t : ℚ) (u : UnitSystem)
    (st : List AidStation) (hne : sectors ≠ [])
    (hd : ∀ s ∈ sectors, 1 ≤ s.endDist - s.startDist) (i : ℕ) (hi : i < sectors.length) :
    0 ≤ sectorRunTimeRaw sectors t u st i := by
  unfold sectorRunTimeRaw
  apply mul_nonneg (le_max_left 0 _)
  exact le_of_lt (div_pos (allocatedWeight_pos sectors hne hd i hi)
    (totalAllocatedWeight_pos sectors hne hd))

/-! ## Characterization of one output element of calculateRacePlan -/

theorem plan_getD_normal (sectors : List Sector) (t : ℚ) (st : List AidStation)
    (u : UnitSystem) (i : ℕ) (hi : i < sectors.length)
    (h1 : 1 ≤ (sectors.getD i sector0).endDist - (sectors.getD i sector0).startDist) :
    ∃ a : ℚ,
      (calculateRacePlan sectors t st u).getD i planned0 =
        { id := (sectors.getD i sector0).id
          startDist := (sectors.getD i sector0).startDist
          endDist := (sectors.getD i sector0).endDist
          elevationGain := (sectors.getD i sector0).elevationGain
          elevationLoss := (sectors.getD i sector0).elevationLoss
          avgGradient := (sectors.getD i sector0).avgGradient
          maxEle := (sectors.getD i sector0).maxEle
          minEle := (sectors.getD i sector0).minEle
          points := (sectors.getD i sector0).points
          combinedElevationChange := (sectors.getD i sector0).elevationGain +
            (sectors.getD i sector0).elevationLoss
          targetDurationSeconds := sectorRunTimeClamped sectors t u st i +
            stationAssignments sectors u st (sectors.getD i sector0).id
          targetPaceSeconds := sectorRunTimeClamped sectors t u st i /
            ((((sectors.getD i sector0).endDist - (sectors.getD i sector0).startDist)) / 1000)
          accumulatedTimeSeconds := a
          hasAidStation := decide (stationAssignments sectors u st (sectors.getD i sector0).id > 0)
          fatigueLevel := min 100 (jsRound (relativeFatigue sectors i * 100)) } := by
  match sectors with
  | [] => simp at hi
  | s :: l =>
    rw [calculateRacePlan_cons]
    obtain ⟨a, ha⟩ := planLoop_get_shape (s :: l) t u st (s :: l) 0 0 i hi
    rw [ha]
    refine ⟨a + (sectorRunTimeClamped (s :: l) t u st i +
      stationAssignments (s :: l) u st (((s :: l).getD i sector0)).id), ?_⟩
    rw [mkPlanned]
    rw [if_neg (not_lt.mpr h1)]
    simp

/-! ## Claim C9: fatigue levels are monotone and within [0, 100] -/

theorem jsRound_nonneg (x : ℚ) (hx : 0 ≤ x) : 0 ≤ jsRound x := by
  unfold jsRound
  exact Int.le_floor.mpr (by push_cast; linarith)

theorem jsRound_le_hundred (x : ℚ) (hx : x ≤ 100) : jsRound x ≤ 100 := by
  unfold jsRound
  have h : x + 1/2 ≤ (201 : ℚ)/2 := by linarith
  calc Int.floor (x + 1/2) ≤ Int.floor ((201 : ℚ)/2) := Int.floor_le_floor h
    _ = 100 := by norm_num [Int.floor_eq_iff]

/-- C9: whenever every input segment is at least 1 m long, the fatigueLevel
values in the output of calculateRacePlan are non-decreasing in segment
order, each lies in [0, 100], and each equals the rounded percentage of
cumulative effort over total effort clamped to [0, 100]. -/
theorem fatigueLevel_monotone_bounded (sectors : List Sector) (t : ℚ)
    (st : List AidStation) (u : UnitSystem)
    (hd : ∀ s ∈ sectors, 1 ≤ s.endDist - s.startDist) :
    (∀ i, i + 1 < (calculateRacePlan sectors t st u).length →
      ((calculateRacePlan sectors t st u).getD i planned0).fatigueLevel ≤
        ((calculateRacePlan sectors t st u).getD (i+1) planned0).fatigueLevel) ∧
    (∀ i, i < (calculateRacePlan sectors t st u).length →
      0 ≤ ((calculateRacePlan sectors t st u).getD i planned0).fatigueLevel ∧
      ((calculateRacePlan sectors t st u).getD i planned0).fatigueLevel ≤ 100 ∧
      ((calculateRacePlan sectors t st u).getD i planned0).fatigueLevel =
        max 0 (min 100 (jsRound (relativeFatigue sectors i * 100)))) := by
  have hlen : (calculateRacePlan sectors t st u).length = sectors.length := by
    match sectors with
    | [] => rw [calculateRacePlan_nil]; rfl
    | s :: l => rw [calculateRacePlan_cons, planLoop_length]

  have hne : ∀ i : ℕ, i < sectors.length → sectors ≠ [] := by
    intro i hi h
    rw [h] at hi
    simp at hi
  have hfat : ∀ i, i < sectors.length →
      ((calculateRacePlan sectors t st u).getD i planned0).fatigueLevel =
        min 100 (jsRound (relativeFatigue sectors i * 100)) := by
    intro i hi
    obtain ⟨a, ha⟩ := plan_getD_normal sectors t st u i hi
      (hd _ (getD_mem_of_lt sectors sector0 i hi))
    rw [ha]
  have hrfpos : ∀ i, i < sectors.length → 0 < relativeFatigue sectors i := fun i hi =>
    relativeFatigue_pos sectors (hne i hi) hd i
  have hrfle : ∀ i, i < sectors.length → relativeFatigue sectors i ≤ 1 := fun i hi =>
    relativeFatigue_le_one sectors (hne i hi) hd i
  constructor
  · intro i hi
    rw [hlen] at hi
    rw [hfat i (by omega), hfat (i+1) hi]
    apply min_le_min (le_refl 100)
    unfold jsRound
    apply Int.floor_le_floor
    have := relativeFatigue_mono sectors (hne (i+1) hi) hd i (i+1) (by omega)
    linarith
  · intro i hi
    rw [hlen] at hi
    rw [hfat i hi]
    have h0 : (0:ℤ) ≤ min 100 (jsRound (relativeFatigue sectors i * 100)) := by
      apply le_min (by norm_num)
      exact jsRound_nonneg _ (by nlinarith [hrfpos i hi])
    refine ⟨h0, min_le_left _ _, ?_⟩
    rw [max_eq_right h0]

/-- Witness for C9 at a concrete two-sector input. -/
theorem fatigueLevel_monotone_bounded_witness :
    ((calculateRacePlan [⟨1, 0, 1000, 0, 0, 0, 0, 0, []⟩, ⟨2, 1000, 2000, 0, 0, 0, 0, 0, []⟩]
        3600 [] .metric).getD 0 planned0).fatigueLevel ≤
      ((calculateRacePlan [⟨1, 0, 1000, 0, 0, 0, 0, 0, []⟩, ⟨2, 1000, 2000, 0, 0, 0, 0, 0, []⟩]
        3600 [] .metric).getD 1 planned0).fatigueLevel ∧
    0 ≤ ((calculateRacePlan [⟨1, 0, 1000, 0, 0, 0, 0, 0, []⟩, ⟨2, 1000, 2000, 0, 0, 0, 0, 0, []⟩]
        3600 [] .metric).getD 0 planned0).fatigueLevel ∧
    ((calculateRacePlan [⟨1, 0, 1000, 0, 0, 0, 0, 0, []⟩, ⟨2, 1000, 2000, 0, 0, 0, 0, 0, []⟩]
        3600 [] .metric).getD 0 planned0).fatigueLevel ≤ 100 := by
  have hd : ∀ s ∈ [(⟨1, 0, 1000, 0, 0, 0, 0, 0, []⟩ : Sector), ⟨2, 1000, 2000, 0, 0, 0, 0, 0, []⟩],
      1 ≤ s.endDist - s.startDist := by
    intro s hs
    simp only [List.mem_cons, List.not_mem_nil, or_false] at hs
    rcases hs with rfl | rfl <;> norm_num
  have hlen : (calculateRacePlan [(⟨1, 0, 1000, 0, 0, 0, 0, 0, []⟩ : Sector),
      ⟨2, 1000, 2000, 0, 0, 0, 0, 0, []⟩] 3600 [] .metric).length = 2 := by
    rw [calculateRacePlan_cons, planLoop_length]
    rfl
  have h := fatigueLevel_monotone_bounded
    [(⟨1, 0, 1000, 0, 0, 0, 0, 0, []⟩ : Sector), ⟨2, 1000, 2000, 0, 0, 0, 0, 0, []⟩]
    3600 [] .metric hd
  exact ⟨h.1 0 (by rw [hlen]; norm_num), (h.2 0 (by rw [hlen]; norm_num)).1,
    (h.2 0 (by rw [hlen]; norm_num)).2.1⟩

/-! ## Claim C5: segment count, boundaries, contiguity, coverage -/

theorem sectorsFrom_length (points : List GPXPoint) (L D : ℚ) :
    ∀ (count i cur : ℕ), (sectorsFrom points L D count i cur).length = count := by
  intro count
  induction count with
  | zero => intro i cur; rfl
  | succ n ih => intro i cur; simp [sectorsFrom, ih]

theorem sectorsFrom_getD (points : List GPXPoint) (L D : ℚ) :
    ∀ (count i0 cur k : ℕ), k < count →
      ∃ c, (sectorsFrom points L D count i0 cur).getD k sector0 =
        (mkSector points L D (i0 + k) c).1 := by
  intro count
  induction count with
  | zero => intro i0 cur k hk; simp at hk
  | succ n ih =>
    intro i0 cur k hk
    match k with
    | 0 => exact ⟨cur, by simp [sectorsFrom]⟩
    | k + 1 =>
      obtain ⟨c, hc⟩ := ih (i0 + 1) (mkSector points L D i0 cur).2 k (by omega)
      exact ⟨c, by simpa [sectorsFrom, Nat.add_assoc, Nat.add_comm 1 k] using hc⟩

theorem mkSector_id (points : List GPXPoint) (L D : ℚ) (i cur : ℕ) :
    (mkSector points L D i cur).1.id = i + 1 := by
  simp [mkSector]

theorem mkSector_startDist (points : List GPXPoint) (L D : ℚ) (i cur : ℕ) :
    (mkSector points L D i cur).1.startDist = (i : ℚ) * L := by
  simp [mkSector]

theorem mkSector_endDist (points : List GPXPoint) (L D : ℚ) (i cur : ℕ) :
    (mkSector points L D i cur).1.endDist = min (((i : ℚ) + 1) * L) D := by
  simp [mkSector]

/-- C5: for every point list whose final cumulative distance is positive and
every positive segment length, generateSectors produces exactly
`ceil(totalDistance / segmentLength)` sectors; the sector at index i carries
`id = i + 1`, `startDistance = i·L` and
`endDistance = min((i+1)·L, totalDistance)`; consecutive sectors share their
boundary (`endDistance i = startDistance (i+1)`); the first sector starts at
0 and the last ends exactly at totalDistance, so the sectors contiguously
cover `[0, totalDistance]`. -/
theorem generateSectors_segmentation (points : List GPXPoint) (sectorSize : ℚ)
    (hD : 0 < lastPointDist points) (hL : 0 < sectorSize) :
    (generateSectors points sectorSize).length =
        (Int.ceil (lastPointDist points / sectorSize)).toNat ∧
    (∀ i, i < (generateSectors points sectorSize).length →
      ((generateSectors points sectorSize).getD i sector0).id = i + 1 ∧
      ((generateSectors points sectorSize).getD i sector0).startDist =
        (i : ℚ) * sectorSize ∧
      ((generateSectors points sectorSize).getD i sector0).endDist =
        min (((i : ℚ) + 1) * sectorSize) (lastPointDist points)) ∧
    (∀ i, i + 1 < (generateSectors points sectorSize).length →
      ((generateSectors points sectorSize).getD i sector0).endDist =
        ((generateSectors points sectorSize).getD (i+1) sector0).startDist) ∧
    ((generateSectors points sectorSize).getD 0 sector0).startDist = 0 ∧
    ((generateSectors points sectorSize).getD
        ((generateSectors points sectorSize).length - 1) sector0).endDist =
      lastPointDist points := by
  set D := lastPointDist points with hDdef
  set n := numSectorsOf points sectorSize with hndef
  have hlen : (generateSectors points sectorSize).length = n := by
    rw [generateSectors, sectorsFrom_length]
  have hnpos : 0 < n := by
    rw [hndef, numSectorsOf, ← hDdef]
    have : (0:ℤ) < Int.ceil (D / sectorSize) :=
      Int.ceil_pos.mpr (div_pos hD hL)
    omega
  have hfields : ∀ i, i < n →
      ((generateSectors points sectorSize).getD i sector0).id = i + 1 ∧
      ((generateSectors points sectorSize).getD i sector0).startDist = (i : ℚ) * sectorSize ∧
      ((generateSectors points sectorSize).getD i sector0).endDist =
        min (((i : ℚ) + 1) * sectorSize) D := by
    intro i hi
    obtain ⟨c, hc⟩ := sectorsFrom_getD points sectorSize D n 0 0 i hi
    rw [generateSectors, ← hDdef, ← hndef, hc]
    simp [mkSector_id, mkSector_startDist, mkSector_endDist]
  have hceil : ∀ i : ℕ, i + 1 < n → ((i : ℚ) + 1) * sectorSize < D := by
    intro i hi
    have h1 : ((i+1 : ℕ) : ℤ) < Int.ceil (D / sectorSize) := by
      rw [hndef, numSectorsOf, ← hDdef] at hi
      omega
    have h2 : ((i+1 : ℕ) : ℚ) < D / sectorSize := by
      exact_mod_cast Int.lt_ceil.mp h1
    rw [lt_div_iff hL] at h2
    push_cast at h2
    linarith
  refine ⟨by rw [hlen, hndef, numSectorsOf, hDdef], ?_, ?_, ?_, ?_⟩
  · intro i hi
    exact hfields i (hlen ▸ hi)
  · intro i hi
    rw [hlen] at hi
    obtain ⟨_, _, he⟩ := hfields i (by omega)
    obtain ⟨_, hs, _⟩ := hfields (i+1) hi
    rw [he, hs]
    rw [min_eq_left (le_of_lt (hceil i hi))]
    push_cast
    ring
  · obtain ⟨_, hs, _⟩ := hfields 0 hnpos
    rw [hs]
    norm_num
  · rw [hlen]
    obtain ⟨_, _, he⟩ := hfields (n-1) (by omega)
    rw [he]
    have hcast : ((n - 1 : ℕ) : ℚ) + 1 = (n : ℚ) := by
      have : (1:ℕ) ≤ n := hnpos
      push_cast [Nat.cast_sub this]
      ring
    rw [hcast]
    apply min_eq_right
    have h1 : D / sectorSize ≤ ((n : ℤ) : ℚ) := by
      rw [hndef, numSectorsOf, ← hDdef]
      have h2 := Int.le_ceil (D / sectorSize)
      have h3 : (0:ℤ) ≤ Int.ceil (D / sectorSize) :=
        le_of_lt (Int.ceil_pos.mpr (div_pos hD hL))
      calc D / sectorSize ≤ ((Int.ceil (D / sectorSize) : ℤ) : ℚ) := h2
        _ = (((Int.ceil (D / sectorSize)).toNat : ℤ) : ℚ) := by
            rw [Int.toNat_of_nonneg h3]

    rw [div_le_iff hL] at h1
    push_cast at h1 ⊢
    linarith

/-- Witness for C5 at a concrete two-point track of 1000 m split into 400 m
sectors. -/
theorem generateSectors_segmentation_witness :
    (generateSectors [⟨0, 0, 0, 0⟩, ⟨0, 0, 0, 1000⟩] 400).length =
        (Int.ceil (lastPointDist [⟨0, 0, 0, 0⟩, ⟨0, 0, 0, 1000⟩] / 400)).toNat ∧
    ((generateSectors [⟨0, 0, 0, 0⟩, ⟨0, 0, 0, 1000⟩] 400).getD 0 sector0).startDist = 0 := by
  have h := generateSectors_segmentation [⟨0, 0, 0, 0⟩, ⟨0, 0, 0, 1000⟩] 400
    (by norm_num [lastPointDist]) (by norm_num)
  exact ⟨h.1, h.2.2.2.1⟩

/-! ## Claim C7: Pass 3 smoothing formulas -/

/-- C7 counterexample: for the concrete three-sector track [0,50], [50,500],
[500,1000] (all flat) the raw performance factors are 0.96, 1.02 and 0.9595;
the code gives the last sector the PREVIOUS RAW factor 1.02, while the
previous (second-to-last) sector's smoothed factor is 0.7·0.96 + 0.3·1.02 =
0.978 — so the last sector's smoothed factor does not equal the previous
sector's smoothed factor as the claim states. -/
theorem smoothedFactor_last_ne_prev_smoothed :
    smoothedFactor (rawFactors [⟨1, 0, 50, 0, 0, 0, 0, 0, []⟩, ⟨2, 50, 500, 0, 0, 0, 0, 0, []⟩,
        ⟨3, 500, 1000, 0, 0, 0, 0, 0, []⟩]) 2 ≠
      smoothedFactor (rawFactors [⟨1, 0, 50, 0, 0, 0, 0, 0, []⟩, ⟨2, 50, 500, 0, 0, 0, 0, 0, []⟩,
        ⟨3, 500, 1000, 0, 0, 0, 0, 0, []⟩]) 1 := by
  norm_num [smoothedFactor, rawFactors, performanceFactor, strategyOf, fatigueOf,
    relativeFatigue, cumEffort, totalEffortUnits, effortUnits, costMultiplier,
    getMetabolicCost, getTechnicalityPenalty, totalDistOf, jsOr, List.range_succ,
    List.foldl, List.getElem?_cons_succ, List.getElem?_cons_zero]

/-- C7 (amended): for every segment list of length at least 3 whose segments
are all at least 1 m long, Pass 3 computes: for interior segments (neither
first, second-to-last nor last) the 3-tap 0.2/0.6/0.2 weighted average of the
raw factors of the segment and its neighbors; for the second-to-last segment
0.7 times its predecessor's raw factor plus 0.3 times its own; and for the
last segment its predecessor's RAW performance factor (not the predecessor's
smoothed factor). -/
theorem smoothedFactor_formulas (sectors : List Sector)
    (h3 : 3 ≤ sectors.length)
    (hd : ∀ s ∈ sectors, 1 ≤ s.endDist - s.startDist) :
    (∀ i, 1 ≤ i → i + 3 ≤ sectors.length →
      smoothedFactor (rawFactors sectors) i =
        performanceFactor sectors (i-1) * 0.2 + performanceFactor sectors i * 0.6 +
          performanceFactor sectors (i+1) * 0.2) ∧
    smoothedFactor (rawFactors sectors) (sectors.length - 2) =
      performanceFactor sectors (sectors.length - 3) * 0.7 +
        performanceFactor sectors (sectors.length - 2) * 0.3 ∧
    smoothedFactor (rawFactors sectors) (sectors.length - 1) =
      performanceFactor sectors (sectors.length - 2) := by
  have hne : sectors ≠ [] := by
    intro h
    rw [h] at h3
    simp at h3
  have hpos : ∀ k, k < sectors.length → 0 < (rawFactors sectors).getD k 0 := by
    intro k hk
    rw [rawFactors_getD sectors k hk]
    exact performanceFactor_pos sectors hne hd k
  refine ⟨?_, ?_, ?_⟩
  · intro i h1 h2
    simp only [smoothedFactor, rawFactors_length]
    rw [if_neg (by omega : ¬ i = sectors.length - 1),
      if_neg (by omega : ¬ i = sectors.length - 2),
      if_neg (by omega : ¬ i = 0),
      if_pos (by omega : i + 1 < sectors.length)]
    rw [jsOr_of_pos _ (hpos (i-1) (by omega)), jsOr_of_pos _ (hpos (i+1) (by omega))]
    rw [rawFactors_getD sectors (i-1) (by omega), rawFactors_getD sectors i (by omega),
      rawFactors_getD sectors (i+1) (by omega)]
  · simp only [smoothedFactor, rawFactors_length]
    rw [if_neg (by omega : ¬ sectors.length - 2 = sectors.length - 1)]
    simp only [if_true]
    rw [if_neg (by omega : ¬ sectors.length - 2 = 0)]
    have he : sectors.length - 2 - 1 = sectors.length - 3 := by omega
    rw [he, jsOr_of_pos _ (hpos (sectors.length - 3) (by omega))]
    rw [rawFactors_getD sectors (sectors.length - 3) (by omega),
      rawFactors_getD sectors (sectors.length - 2) (by omega)]
  · simp only [smoothedFactor, rawFactors_length]
    simp only [if_true]
    rw [if_neg (by omega : ¬ sectors.length - 1 = 0)]
    have he : sectors.length - 1 - 1 = sectors.length - 2 := by omega
    rw [he, jsOr_of_pos _ (hpos (sectors.length - 2) (by omega))]
    rw [rawFactors_getD sectors (sectors.length - 2) (by omega)]

/-- Witness for C7 at a concrete four-sector input (so the interior clause is
exercised at i = 1). -/
theorem smoothedFactor_formulas_witness :
    smoothedFactor (rawFactors [⟨1, 0, 250, 0, 0, 0, 0, 0, []⟩, ⟨2, 250, 500, 0, 0, 0, 0, 0, []⟩,
        ⟨3, 500, 750, 0, 0, 0, 0, 0, []⟩, ⟨4, 750, 1000, 0, 0, 0, 0, 0, []⟩]) 1 =
      performanceFactor [⟨1, 0, 250, 0, 0, 0, 0, 0, []⟩, ⟨2, 250, 500, 0, 0, 0, 0, 0, []⟩,
        ⟨3, 500, 750, 0, 0, 0, 0, 0, []⟩, ⟨4, 750, 1000, 0, 0, 0, 0, 0, []⟩] 0 * 0.2 +
      performanceFactor [⟨1, 0, 250, 0, 0, 0, 0, 0, []⟩, ⟨2, 250, 500, 0, 0, 0, 0, 0, []⟩,
        ⟨3, 500, 750, 0, 0, 0, 0, 0, []⟩, ⟨4, 750, 1000, 0, 0, 0, 0, 0, []⟩] 1 * 0.6 +
      performanceFactor [⟨1, 0, 250, 0, 0, 0, 0, 0, []⟩, ⟨2, 250, 500, 0, 0, 0, 0, 0, []⟩,
        ⟨3, 500, 750, 0, 0, 0, 0, 0, []⟩, ⟨4, 750, 1000, 0, 0, 0, 0, 0, []⟩] 2 * 0.2 := by
  have h := smoothedFactor_formulas [⟨1, 0, 250, 0, 0, 0, 0, 0, []⟩,
    ⟨2, 250, 500, 0, 0, 0, 0, 0, []⟩, ⟨3, 500, 750, 0, 0, 0, 0, 0, []⟩,
    ⟨4, 750, 1000, 0, 0, 0, 0, 0, []⟩] (by norm_num)
    (by
      intro s hs
      simp only [List.mem_cons, List.not_mem_nil, or_false] at hs
      rcases hs with rfl | rfl | rfl | rfl <;> norm_num)
  exact h.1 1 (by norm_num) (by norm_num)

/-! ## Field lemmas for normal (≥ 1 m) output sectors -/

theorem plan_avgGradient_eq (sectors : List Sector) (t : ℚ) (st : List AidStation)
    (u : UnitSystem) (i : ℕ) (hi : i < sectors.length)
    (h1 : 1 ≤ (sectors.getD i sector0).endDist - (sectors.getD i sector0).startDist) :
    ((calculateRacePlan sectors t st u).getD i planned0).avgGradient =
      (sectors.getD i sector0).avgGradient := by
  obtain ⟨a, ha⟩ := plan_getD_normal sectors t st u i hi h1
  rw [ha]

theorem plan_targetPace_eq (sectors : List Sector) (t : ℚ) (st : List AidStation)
    (u : UnitSystem) (i : ℕ) (hi : i < sectors.length)
    (h1 : 1 ≤ (sectors.getD i sector0).endDist - (sectors.getD i sector0).startDist) :
    ((calculateRacePlan sectors t st u).getD i planned0).targetPaceSeconds =
      sectorRunTimeClamped sectors t u st i /
        (((sectors.getD i sector0).endDist - (sectors.getD i sector0).startDist) / 1000) := by
  obtain ⟨a, ha⟩ := plan_getD_normal sectors t st u i hi h1
  rw [ha]

theorem plan_targetDuration_eq (sectors : List Sector) (t : ℚ) (st : List AidStation)
    (u : UnitSystem) (i : ℕ) (hi : i < sectors.length)
    (h1 : 1 ≤ (sectors.getD i sector0).endDist - (sectors.getD i sector0).startDist) :
    ((calculateRacePlan sectors t st u).getD i planned0).targetDurationSeconds =
      sectorRunTimeClamped sectors t u st i +
        stationAssignments sectors u st (sectors.getD i sector0).id := by
  obtain ⟨a, ha⟩ := plan_getD_normal sectors t st u i hi h1
  rw [ha]

theorem plan_hasAidStation_eq (sectors : List Sector) (t : ℚ) (st : List AidStation)
    (u : UnitSystem) (i : ℕ) (hi : i < sectors.length)
    (h1 : 1 ≤ (sectors.getD i sector0).endDist - (sectors.getD i sector0).startDist) :
    ((calculateRacePlan sectors t st u).getD i planned0).hasAidStation =
      decide (stationAssignments sectors u st (sectors.getD i sector0).id > 0) := by
  obtain ⟨a, ha⟩ := plan_getD_normal sectors t st u i hi h1
  rw [ha]

/-! ## Claim C8: the safety clamp keeps the pace within the band -/

theorem sectorRunTimeClamped_band (sectors : List Sector) (t : ℚ) (u : UnitSystem)
    (st : List AidStation) (i : ℕ)
    (h1 : 1 ≤ (sectors.getD i sector0).endDist - (sectors.getD i sector0).startDist)
    (hg : |(sectors.getD i sector0).avgGradient| ≤ 15)
    (ha : 0 ≤ avgPacePerMeter sectors t u st) :
    avgPacePerMeter sectors t u st * 0.4 *
        ((sectors.getD i sector0).endDist - (sectors.getD i sector0).startDist) ≤
      sectorRunTimeClamped sectors t u st i ∧
    sectorRunTimeClamped sectors t u st i ≤
      avgPacePerMeter sectors t u st * 3.0 *
        ((sectors.getD i sector0).endDist - (sectors.getD i sector0).startDist) := by
  simp only [sectorRunTimeClamped]
  rw [if_neg (not_lt.mpr hg)]
  set s := sectors.getD i sector0
  set d := s.endDist - s.startDist with hddef
  set raw := sectorRunTimeRaw sectors t u st i with hrawdef
  set a := avgPacePerMeter sectors t u st with hadef
  have hdpos : (0:ℚ) < d := by linarith
  by_cases hlo : raw / d < a * 0.4
  · rw [if_pos hlo, if_neg (by nlinarith : ¬ raw / d > a * 3.0)]
    constructor <;> nlinarith
  · rw [if_neg hlo]
    by_cases hhi : raw / d > a * 3.0
    · rw [if_pos hhi]
      constructor <;> nlinarith
    · rw [if_neg hhi]
      push_neg at hlo hhi
      have hray : raw = (raw / d) * d := by
        field_simp
      constructor
      · rw [hray]; nlinarith
      · rw [hray]; nlinarith

/-- C8 counterexample: with sectors [0,1000] and [1000,1000.5] (the second
under one meter) and goal 3600 s, the second output sector has
averageGradientPercent 0 (so |gradient| ≤ 15) and targetPaceSeconds 0, while
the running budget is positive — 0 lies strictly below 0.4 times the average
running pace per km, so the pace-sanity band is violated by the special-cased
sub-meter sector. -/
theorem pace_band_fails_sub_meter :
    0 < runBudget [⟨1, 0, 1000, 0, 0, 0, 0, 0, []⟩, ⟨2, 1000, 1000.5, 0, 0, 0, 0, 0, []⟩]
        3600 .metric [] ∧
    |((calculateRacePlan [⟨1, 0, 1000, 0, 0, 0, 0, 0, []⟩, ⟨2, 1000, 1000.5, 0, 0, 0, 0, 0, []⟩]
        3600 [] .metric).getD 1 planned0).avgGradient| ≤ 15 ∧
    ¬ (0.4 * (1000 * avgPacePerMeter [⟨1, 0, 1000, 0, 0, 0, 0, 0, []⟩,
          ⟨2, 1000, 1000.5, 0, 0, 0, 0, 0, []⟩] 3600 .metric []) ≤
        ((calculateRacePlan [⟨1, 0, 1000, 0, 0, 0, 0, 0, []⟩, ⟨2, 1000, 1000.5, 0, 0, 0, 0, 0, []⟩]
          3600 [] .metric).getD 1 planned0).targetPaceSeconds) := by
  rw [calculateRacePlan_cons]
  norm_num [planLoop, mkPlanned, sectorRunTimeClamped, sectorRunTimeRaw,
    runBudget, totalStoppedTime, sectorStopHere, stationAssignments, avgPacePerMeter,
    allocatedWeight, totalAllocatedWeight, rawFactors, performanceFactor, strategyOf,
    fatigueOf, relativeFatigue, cumEffort, totalEffortUnits, effortUnits, costMultiplier,
    getMetabolicCost, getTechnicalityPenalty, totalDistOf, jsOr, jsRound, smoothedFactor,
    List.range_succ, List.foldl, List.getElem?_cons_succ, List.getElem?_cons_zero]

/-- C8 (amended): for every output sector of at least 1 m whose
averageGradientPercent has absolute value at most 15, given a positive
running budget and positive total distance, the targetPaceSeconds per km
lies within [0.4, 3.0] times the average running pace per km
(1000 · runningBudget / totalDistance). -/
theorem pace_within_band (sectors : List Sector) (t : ℚ) (st : List AidStation)
    (u : UnitSystem) (i : ℕ)
    (hB : 0 < runBudget sectors t u st)
    (hD : 0 < totalDistOf sectors)
    (hi : i < sectors.length)
    (h1 : 1 ≤ (sectors.getD i sector0).endDist - (sectors.getD i sector0).startDist)
    (hg : |((calculateRacePlan sectors t st u).getD i planned0).avgGradient| ≤ 15) :
    0.4 * (1000 * avgPacePerMeter sectors t u st) ≤
      ((calculateRacePlan sectors t st u).getD i planned0).targetPaceSeconds ∧
    ((calculateRacePlan sectors t st u).getD i planned0).targetPaceSeconds ≤
      3.0 * (1000 * avgPacePerMeter sectors t u st) := by
  rw [plan_avgGradient_eq sectors t st u i hi h1] at hg
  rw [plan_targetPace_eq sectors t st u i hi h1]
  have ha : 0 ≤ avgPacePerMeter sectors t u st :=
    le_of_lt (div_pos hB hD)
  obtain ⟨hlow, hhigh⟩ := sectorRunTimeClamped_band sectors t u st i h1 hg ha
  set d := (sectors.getD i sector0).endDist - (sectors.getD i sector0).startDist with hddef
  set a := avgPacePerMeter sectors t u st with hadef
  set rt := sectorRunTimeClamped sectors t u st i with hrtdef
  have hdpos : (0:ℚ) < d := by linarith
  have hd1000 : (0:ℚ) < d / 1000 := by positivity
  constructor
  · rw [le_div_iff hd1000]
    nlinarith
  · rw [div_le_iff hd1000]
    nlinarith

/-- Witness for C8 at a concrete one-sector input. -/
theorem pace_within_band_witness :
    0.4 * (1000 * avgPacePerMeter [⟨1, 0, 1000, 0, 0, 0, 0, 0, []⟩] 3600 .metric []) ≤
      ((calculateRacePlan [⟨1, 0, 1000, 0, 0, 0, 0, 0, []⟩] 3600 [] .metric).getD 0
        planned0).targetPaceSeconds ∧
    ((calculateRacePlan [⟨1, 0, 1000, 0, 0, 0, 0, 0, []⟩] 3600 [] .metric).getD 0
        planned0).targetPaceSeconds ≤
      3.0 * (1000 * avgPacePerMeter [⟨1, 0, 1000, 0, 0, 0, 0, 0, []⟩] 3600 .metric []) :=
  pace_within_band [⟨1, 0, 1000, 0, 0, 0, 0, 0, []⟩] 3600 [] .metric 0
    (by norm_num [runBudget, totalStoppedTime, sectorStopHere, List.foldl])
    (by norm_num [totalDistOf])
    (by norm_num)
    (by norm_num)
    (by
      rw [plan_avgGradient_eq _ _ _ _ 0 (by norm_num) (by norm_num)]
      norm_num)

/-! ## Claim C6: rest-stop containment -/

theorem totalDistOf_eq_getD (sectors : List Sector) (hne : sectors ≠ []) :
    totalDistOf sectors = (sectors.getD (sectors.length - 1) sector0).endDist := by
  unfold totalDistOf
  rw [List.getLast?_eq_getElem?]
  have hlt : sectors.length - 1 < sectors.length := by
    have : sectors.length ≠ 0 := fun h => hne (List.length_eq_zero.mp h)
    omega
  rw [List.getD_eq_getElem sectors sector0 hlt, List.getElem?_eq_getElem hlt]
  rfl

theorem filter_id_nil (t : List Sector) :
    ∀ (k c : ℕ), c ≤ k → (∀ j, j < t.length → (t.getD j sector0).id = k + j + 1) →
      t.filter (fun s => decide (s.id = c)) = [] := by
  induction t with
  | nil => intro k c _ _; rfl
  | cons s r ih =>
    intro k c hc hids
    have hs : s.id = k + 1 := by simpa using hids 0 (by simp)
    rw [List.filter_cons, if_neg (by simp only [decide_eq_true_eq, hs]; omega)]
    exact ih (k+1) c (by omega) (fun j hj => by
      have := hids (j+1) (by simpa using Nat.succ_lt_succ hj)
      simpa [Nat.add_assoc, Nat.add_comm 1 j] using this)

theorem filter_id_single (l : List Sector) :
    ∀ (k i : ℕ), i < l.length →
      (∀ j, j < l.length → (l.getD j sector0).id = k + j + 1) →
      l.filter (fun s => decide (s.id = k + i + 1)) = [l.getD i sector0] := by
  induction l with
  | nil => intro k i hi; simp at hi
  | cons s r ih =>
    intro k i hi hids
    have hs : s.id = k + 1 := by simpa using hids 0 (by simp)
    match i with
    | 0 =>
      rw [List.filter_cons, if_pos (by simp [hs])]
      rw [filter_id_nil r (k+1) (k+1) (le_refl _) (fun j hj => by
        have := hids (j+1) (by simpa using Nat.succ_lt_succ hj)
        simpa [Nat.add_assoc, Nat.add_comm 1 j] using this)]
      simp
    | i + 1 =>
      rw [List.filter_cons, if_neg (by simp only [decide_eq_true_eq, hs]; omega)]
      have := ih (k+1) i (by simpa using hi) (fun j hj => by
        have := hids (j+1) (by simpa using Nat.succ_lt_succ hj)
        simpa [Nat.add_assoc, Nat.add_comm 1 j] using this)
      rw [show k + 1 + i + 1 = k + (i + 1) + 1 by omega] at this
      simpa using this

theorem sectorStopHere_eq_sum (u : UnitSystem) (stations : List AidStation) (s : Sector) :
    sectorStopHere u stations s =
      ((stations.filter (fun a => decide (stationInSector u a s))).map
        (·.penaltySeconds)).sum := by
  simpa using foldl_add_ite_eq (fun a => stationInSector u a s) (·.penaltySeconds) stations 0

theorem sectorStopHere_nonneg (u : UnitSystem) (stations : List AidStation) (s : Sector)
    (hpen : ∀ a ∈ stations, 0 ≤ a.penaltySeconds) :
    0 ≤ sectorStopHere u stations s := by
  rw [sectorStopHere_eq_sum]
  apply List.sum_nonneg
  intro x hx
  obtain ⟨a, ha, rfl⟩ := List.mem_map.mp hx
  exact hpen a (List.mem_filter.mp ha).1

theorem sectorStopHere_ge (u : UnitSystem) (stations : List AidStation) (s : Sector)
    (a : AidStation) (hmem : a ∈ stations) (hin : stationInSector u a s)
    (hpen : ∀ b ∈ stations, 0 ≤ b.penaltySeconds) :
    a.penaltySeconds ≤ sectorStopHere u stations s := by
  rw [sectorStopHere_eq_sum]
  apply List.single_le_sum
  · intro x hx
    obtain ⟨b, hb, rfl⟩ := List.mem_map.mp hx
    exact hpen b (List.mem_filter.mp hb).1
  · exact List.mem_map.mpr ⟨a, List.mem_filter.mpr ⟨hmem, by simpa using hin⟩, rfl⟩

theorem stationAssignments_eq_stopHere (sectors : List Sector) (u : UnitSystem)
    (stations : List AidStation) (i : ℕ) (hi : i < sectors.length)
    (hids : ∀ j, j < sectors.length → (sectors.getD j sector0).id = j + 1) :
    stationAssignments sectors u stations (i + 1) =
      sectorStopHere u stations (sectors.getD i sector0) := by
  unfold stationAssignments
  rw [foldl_add_ite_eq (fun s => s.id = i + 1) (sectorStopHere u stations) sectors 0]
  have h := filter_id_single sectors 0 i hi (fun j hj => by simpa using hids j hj)
  rw [Nat.zero_add] at h
  rw [h]
  simp

theorem sectorRunTimeClamped_nonneg (sectors : List Sector) (t : ℚ) (u : UnitSystem)
    (st : List AidStation) (hne : sectors ≠ [])
    (hd : ∀ s ∈ sectors, 1 ≤ s.endDist - s.startDist) (i : ℕ) (hi : i < sectors.length)
    (ha : 0 ≤ avgPacePerMeter sectors t u st) :
    0 ≤ sectorRunTimeClamped sectors t u st i := by
  have hraw := sectorRunTimeRaw_nonneg sectors t u st hne hd i hi
  have hdist : (0:ℚ) ≤ (sectors.getD i sector0).endDist - (sectors.getD i sector0).startDist := by
    have := hd _ (getD_mem_of_lt sectors sector0 i hi)
    linarith
  simp only [sectorRunTimeClamped]
  split
  · exact hraw
  · split
    · nlinarith
    · split
      · nlinarith
      · exact hraw

theorem startDist_mono (sectors : List Sector)
    (hd : ∀ s ∈ sectors, 1 ≤ s.endDist - s.startDist)
    (hchain : ∀ j, j + 1 < sectors.length →
      (sectors.getD (j+1) sector0).startDist = (sectors.getD j sector0).endDist) :
    ∀ i j, i ≤ j → j < sectors.length →
      (sectors.getD i sector0).startDist ≤ (sectors.getD j sector0).startDist := by
  intro i j hij hj
  induction j with
  | zero =>
    have : i = 0 := by omega
    subst this
    exact le_refl _
  | succ m ih =>
    rcases Nat.lt_or_ge i (m+1) with h | h
    · have h1 : (sectors.getD i sector0).startDist ≤ (sectors.getD m sector0).startDist :=
        ih (by omega) (by omega)
      have h2 := hchain m hj
      have h3 : 1 ≤ (sectors.getD m sector0).endDist - (sectors.getD m sector0).startDist :=
        hd _ (getD_mem_of_lt sectors sector0 m (by omega))
      rw [h2]
      linarith
    · have : i = m + 1 := by omega
      subst this
      exact le_refl _

/-- C6 counterexample: a rest stop at converted distance 0 — inside the
claimed range [0, totalDistance] — is assigned to no sector at all: with one
sector [0, 1000] and a stop at distance 0 km carrying a 60 s penalty, the
single output sector has hasAidStation = false (the code's containment test
`dist > startDist` is strict, and no half-open interval (start, end]
contains 0). -/
theorem station_at_zero_unassigned :
    stationDistMeters .metric ⟨0, 60⟩ = 0 ∧
    (calculateRacePlan [⟨1, 0, 1000, 0, 0, 0, 0, 0, []⟩] 3600 [⟨0, 60⟩] .metric).length = 1 ∧
    ((calculateRacePlan [⟨1, 0, 1000, 0, 0, 0, 0, 0, []⟩] 3600 [⟨0, 60⟩] .metric).getD 0
      planned0).hasAidStation = false := by
  rw [calculateRacePlan_cons]
  norm_num [planLoop, planLoop_length, mkPlanned, sectorRunTimeClamped, sectorRunTimeRaw,
    runBudget, totalStoppedTime, sectorStopHere, stationAssignments, stationInSector,
    stationDistMeters, avgPacePerMeter, allocatedWeight, totalAllocatedWeight, rawFactors,
    performanceFactor, strategyOf, fatigueOf, relativeFatigue, cumEffort, totalEffortUnits,
    effortUnits, costMultiplier, getMetabolicCost, getTechnicalityPenalty, totalDistOf,
    jsOr, jsRound, smoothedFactor, List.range_succ, List.foldl,
    List.getElem?_cons_succ, List.getElem?_cons_zero]

/-- C6 (amended): for the contiguous 1-based-id sector lists the pipeline
produces (ids i+1, start 0, chained boundaries, each sector at least 1 m) and
nonnegative penalties, every rest stop whose converted distance lies in
(0, totalDistance] and whose own penalty is positive is contained in the
half-open interval (startDistance, endDistance] of exactly one sector; that
sector's planned output has hasAidStation = true and its
targetDurationSeconds includes (is at least) the stop's penaltySeconds. -/
theorem restStop_contained_unique (sectors : List Sector) (t : ℚ)
    (stations : List AidStation) (u : UnitSystem) (a : AidStation)
    (hne : sectors ≠ [])
    (hids : ∀ j, j < sectors.length → (sectors.getD j sector0).id = j + 1)
    (hstart0 : (sectors.getD 0 sector0).startDist = 0)
    (hchain : ∀ j, j + 1 < sectors.length →
      (sectors.getD (j+1) sector0).startDist = (sectors.getD j sector0).endDist)
    (hd : ∀ s ∈ sectors, 1 ≤ s.endDist - s.startDist)
    (hpen : ∀ b ∈ stations, 0 ≤ b.penaltySeconds)
    (hmem : a ∈ stations)
    (hp : 0 < a.penaltySeconds)
    (hd0 : 0 < stationDistMeters u a)
    (hdT : stationDistMeters u a ≤ totalDistOf sectors) :
    ∃ i, i < sectors.length ∧
      ((sectors.getD i sector0).startDist < stationDistMeters u a ∧
        stationDistMeters u a ≤ (sectors.getD i sector0).endDist) ∧
      (∀ j, j < sectors.length →
        (sectors.getD j sector0).startDist < stationDistMeters u a →
        stationDistMeters u a ≤ (sectors.getD j sector0).endDist → j = i) ∧
      ((calculateRacePlan sectors t stations u).getD i planned0).hasAidStation = true ∧
      a.penaltySeconds ≤
        ((calculateRacePlan sectors t stations u).getD i planned0).targetDurationSeconds := by
  set d := stationDistMeters u a with hddef
  have hn : 0 < sectors.length := by
    cases sectors with
    | nil => exact absurd rfl hne
    | cons x l => simp
  -- the least index whose endDist reaches d
  have hex : ∃ j, d ≤ (sectors.getD j sector0).endDist :=
    ⟨sectors.length - 1, by rw [← totalDistOf_eq_getD sectors hne]; exact hdT⟩
  set i := Nat.find hex with hidef
  have hiP : d ≤ (sectors.getD i sector0).endDist := Nat.find_spec hex
  have hilt : i < sectors.length := by
    have h1 : i ≤ sectors.length - 1 := Nat.find_min' hex
      (by rw [← totalDistOf_eq_getD sectors hne]; exact hdT)
    omega
  have histart : (sectors.getD i sector0).startDist < d := by
    rcases Nat.eq_zero_or_pos i with h0 | hpos
    · rw [h0, hstart0]; exact hd0
    · obtain ⟨m, hm⟩ : ∃ m, i = m + 1 := ⟨i - 1, by omega⟩
      have hnot := Nat.find_min hex (show m < Nat.find hex by omega)
      push_neg at hnot
      have hch := hchain m (by omega)
      rw [hm, hch]
      exact hnot
  have huniq : ∀ j, j < sectors.length →
      (sectors.getD j sector0).startDist < d →
      d ≤ (sectors.getD j sector0).endDist → j = i := by
    intro j hj hjs hje
    by_contra hne'
    rcases Nat.lt_or_ge j i with h | h
    · exact Nat.find_min hex h hje
    · have hij : i + 1 ≤ j := by omega
      have h1 : (sectors.getD (i+1) sector0).startDist ≤ (sectors.getD j sector0).startDist :=
        startDist_mono sectors hd hchain (i+1) j hij hj
      have h2 := hchain i (by omega)
      rw [h2] at h1
      linarith
  have hstop : a.penaltySeconds ≤ sectorStopHere u stations (sectors.getD i sector0) :=
    sectorStopHere_ge u stations _ a hmem ⟨histart, hiP⟩ hpen
  have hassign : stationAssignments sectors u stations ((sectors.getD i sector0).id) =
      sectorStopHere u stations (sectors.getD i sector0) := by
    rw [hids i hilt]
    exact stationAssignments_eq_stopHere sectors u stations i hilt hids
  have h1m : 1 ≤ (sectors.getD i sector0).endDist - (sectors.getD i sector0).startDist :=
    hd _ (getD_mem_of_lt sectors sector0 i hilt)
  have hT : 0 < totalDistOf sectors := lt_of_lt_of_le hd0 hdT
  have hapm : 0 ≤ avgPacePerMeter sectors t u stations :=
    div_nonneg (le_max_left 0 _) (le_of_lt hT)
  have hrt := sectorRunTimeClamped_nonneg sectors t u stations hne hd i hilt hapm
  refine ⟨i, hilt, ⟨histart, hiP⟩, huniq, ?_, ?_⟩
  · rw [plan_hasAidStation_eq sectors t stations u i hilt h1m, hassign]
    simpa using lt_of_lt_of_le hp hstop
  · rw [plan_targetDuration_eq sectors t stations u i hilt h1m, hassign]
    linarith

/-- Witness for C6 at a concrete input: one 1000 m sector, one stop at 0.5 km
with a 60 s penalty. -/
theorem restStop_contained_unique_witness :
    ∃ i, i < ([⟨1, 0, 1000, 0, 0, 0, 0, 0, []⟩] : List Sector).length ∧
      ((([⟨1, 0, 1000, 0, 0, 0, 0, 0, []⟩] : List Sector).getD i sector0).startDist <
          stationDistMeters .metric ⟨0.5, 60⟩ ∧
        stationDistMeters .metric ⟨0.5, 60⟩ ≤
          (([⟨1, 0, 1000, 0, 0, 0, 0, 0, []⟩] : List Sector).getD i sector0).endDist) ∧
      (∀ j, j < ([⟨1, 0, 1000, 0, 0, 0, 0, 0, []⟩] : List Sector).length →
        (([⟨1, 0, 1000, 0, 0, 0, 0, 0, []⟩] : List Sector).getD j sector0).startDist <
          stationDistMeters .metric ⟨0.5, 60⟩ →
        stationDistMeters .metric ⟨0.5, 60⟩ ≤
          (([⟨1, 0, 1000, 0, 0, 0, 0, 0, []⟩] : List Sector).getD j sector0).endDist → j = i) ∧
      ((calculateRacePlan [⟨1, 0, 1000, 0, 0, 0, 0, 0, []⟩] 3600 [⟨0.5, 60⟩] .metric).getD i
        planned0).hasAidStation = true ∧
      (AidStation.penaltySeconds ⟨0.5, 60⟩) ≤
        ((calculateRacePlan [⟨1, 0, 1000, 0, 0, 0, 0, 0, []⟩] 3600 [⟨0.5, 60⟩] .metric).getD i
          planned0).targetDurationSeconds :=
  restStop_contained_unique [⟨1, 0, 1000, 0, 0, 0, 0, 0, []⟩] 3600 [⟨0.5, 60⟩] .metric ⟨0.5, 60⟩
    (by simp)
    (by
      intro j hj
      have hj0 : j = 0 := by
        simp only [List.length_cons, List.length_nil] at hj
        omega
      subst hj0
      norm_num)
    (by norm_num)
    (by intro j hj; simp at hj)
    (by
      intro s hs
      simp only [List.mem_cons, List.not_mem_nil, or_false] at hs
      subst hs
      norm_num)
    (by
      intro b hb
      simp only [List.mem_cons, List.not_mem_nil, or_false] at hb
      subst hb
      norm_num)
    (by simp)
    (by norm_num)
    (by norm_num [stationDistMeters])
    (by norm_num [stationDistMeters, totalDistOf])

/-! ## Claim C1: budget conservation -/

theorem sum_map_add {α : Type} (l : List α) (f g : α → ℚ) :
    (l.map (fun x => f x + g x)).sum = (l.map f).sum + (l.map g).sum := by
  induction l with
  | nil => simp
  | cons x xs ih => simp [ih]; ring

/-- C1 counterexample: sectors [0,1000] and [1000,1000.5] (the second a
degenerate sub-meter remainder), goal 3600 s, no rest stops (so rest-stop
time 0 < goal).  The sub-meter sector is special-cased to zero duration while
its allocation weight still participated in the total weight, so the last
accumulated time is 3600·(2000/2001) ≈ 3598.2 s, off the goal by about 1.8 s,
far beyond the 1e-3 tolerance. -/
theorem budget_not_conserved_counterexample :
    totalStoppedTime [⟨1, 0, 1000, 0, 0, 0, 0, 0, []⟩, ⟨2, 1000, 1000.5, 0, 0, 0, 0, 0, []⟩]
        .metric [] < 3600 ∧
    (calculateRacePlan [⟨1, 0, 1000, 0, 0, 0, 0, 0, []⟩, ⟨2, 1000, 1000.5, 0, 0, 0, 0, 0, []⟩]
        3600 [] .metric).length = 2 ∧
    ¬ (|((calculateRacePlan [⟨1, 0, 1000, 0, 0, 0, 0, 0, []⟩,
          ⟨2, 1000, 1000.5, 0, 0, 0, 0, 0, []⟩] 3600 [] .metric).getD 1
            planned0).accumulatedTimeSeconds - 3600| ≤ 1/1000) := by
  rw [calculateRacePlan_cons]
  refine ⟨by norm_num [totalStoppedTime, sectorStopHere, List.foldl], ?_, ?_⟩
  · rw [planLoop_length]
    rfl
  · norm_num [planLoop, mkPlanned, sectorRunTimeClamped, sectorRunTimeRaw,
      runBudget, totalStoppedTime, sectorStopHere, stationAssignments, avgPacePerMeter,
      allocatedWeight, totalAllocatedWeight, rawFactors, performanceFactor, strategyOf,
      fatigueOf, relativeFatigue, cumEffort, totalEffortUnits, effortUnits, costMultiplier,
      getMetabolicCost, getTechnicalityPenalty, totalDistOf, jsOr, jsRound, smoothedFactor,
      List.range_succ, List.foldl, List.getElem?_cons_succ, List.getElem?_cons_zero, abs_le]

/-- C1 (amended): if every sector is at least 1 m long, the sector ids are
the pipeline's 1-based indices, the total rest-stop time is strictly below
the goal time, and the safety clamp does not alter any sector's running time,
then the accumulatedTimeSeconds of the last planned sector equals the goal
time (well within the 1e-3 tolerance: the rational arithmetic is exact). -/
theorem budget_conserved (sectors : List Sector) (t : ℚ) (st : List AidStation)
    (u : UnitSystem)
    (hne : sectors ≠ [])
    (hids : ∀ j, j < sectors.length → (sectors.getD j sector0).id = j + 1)
    (hd : ∀ s ∈ sectors, 1 ≤ s.endDist - s.startDist)
    (hstop : totalStoppedTime sectors u st < t)
    (hnoclamp : ∀ i, i < sectors.length →
      sectorRunTimeClamped sectors t u st i = sectorRunTimeRaw sectors t u st i) :
    |((calculateRacePlan sectors t st u).getD
        ((calculateRacePlan sectors t st u).length - 1) planned0).accumulatedTimeSeconds
      - t| ≤ 1/1000 := by
  have hlen : (calculateRacePlan sectors t st u).length = sectors.length := by
    match sectors with
    | [] => exact absurd rfl hne
    | s :: l => rw [calculateRacePlan_cons, planLoop_length]
  have hn : 0 < sectors.length := by
    cases sectors with
    | nil => exact absurd rfl hne
    | cons x l => simp
  -- the last accumulated time is the sum of all durations
  have hacc : ((calculateRacePlan sectors t st u).getD
      ((calculateRacePlan sectors t st u).length - 1) planned0).accumulatedTimeSeconds =
      ((calculateRacePlan sectors t st u).map (·.targetDurationSeconds)).sum := by
    match sectors with
    | [] => exact absurd rfl hne
    | s :: l =>
      rw [calculateRacePlan_cons] at hlen ⊢
      have hk : (planLoop (s :: l) t u st (s :: l) 0 0).length - 1 < (s :: l).length := by
        rw [planLoop_length]
        simp
      have := planLoop_acc_eq (s :: l) t u st (s :: l) 0 0
        ((planLoop (s :: l) t u st (s :: l) 0 0).length - 1) (by rwa [planLoop_length] at hk ⊢)
      rw [this, zero_add]
      congr 1
      have hlen' : 0 < (planLoop (s :: l) t u st (s :: l) 0 0).length := by
        rw [planLoop_length]; simp
      rw [show (planLoop (s :: l) t u st (s :: l) 0 0).length - 1 + 1 =
        (planLoop (s :: l) t u st (s :: l) 0 0).length by omega]
      rw [List.take_length]
  rw [hacc]
  -- durations elementwise
  have hmap : (calculateRacePlan sectors t st u).map (·.targetDurationSeconds) =
      (List.range sectors.length).map (fun k => sectorRunTimeClamped sectors t u st k +
        stationAssignments sectors u st (sectors.getD k sector0).id) := by
    apply List.ext_getElem
    · simp [hlen]
    · intro k h1 h2
      simp only [List.length_map, hlen] at h1
      rw [List.getElem_map, List.getElem_map, List.getElem_range]
      have hfield := plan_targetDuration_eq sectors t st u k h1
        (hd _ (getD_mem_of_lt sectors sector0 k h1))
      rw [List.getD_eq_getElem _ planned0 (by rwa [hlen])] at hfield
      exact hfield
  rw [hmap, sum_map_add]
  -- the running times sum to the running budget
  have hrun : ((List.range sectors.length).map
      (fun k => sectorRunTimeClamped sectors t u st k)).sum =
      runBudget sectors t u st := by
    have hcongr : (List.range sectors.length).map
        (fun k => sectorRunTimeClamped sectors t u st k) =
        (List.range sectors.length).map (fun k => (runBudget sectors t u st /
          totalAllocatedWeight sectors) * allocatedWeight sectors k) := by
      apply List.map_congr_left
      intro k hk
      rw [hnoclamp k (List.mem_range.mp hk)]
      unfold sectorRunTimeRaw
      ring
    rw [hcongr, List.sum_map_mul_left]
    have hW : totalAllocatedWeight sectors ≠ 0 :=
      ne_of_gt (totalAllocatedWeight_pos sectors hne hd)
    rw [totalAllocatedWeight] at hW ⊢
    field_simp
  -- the assignments sum to the total stopped time
  have hstops : ((List.range sectors.length).map
      (fun k => stationAssignments sectors u st (sectors.getD k sector0).id)).sum =
      totalStoppedTime sectors u st := by
    have hcongr : (List.range sectors.length).map
        (fun k => stationAssignments sectors u st (sectors.getD k sector0).id) =
        (List.range sectors.length).map
          (fun k => sectorStopHere u st (sectors.getD k sector0)) := by
      apply List.map_congr_left
      intro k hk
      have hk' := List.mem_range.mp hk
      rw [hids k hk']
      exact stationAssignments_eq_stopHere sectors u st k hk' hids
    rw [hcongr]
    have heq : (List.range sectors.length).map
        (fun k => sectorStopHere u st (sectors.getD k sector0)) =
        sectors.map (sectorStopHere u st) := by
      apply List.ext_getElem
      · simp
      · intro k h1 h2
        simp only [List.length_map, List.length_range] at h1 h2
        rw [List.getElem_map, List.getElem_map, List.getElem_range]
        rw [List.getD_eq_getElem sectors sector0 h2]
    rw [heq, totalStoppedTime]
    simpa using (foldl_add_eq (sectorStopHere u st) sectors 0).symm
  rw [hrun, hstops, runBudget]
  rw [max_eq_right (by linarith)]
  simp

/-- Witness for C1 at a concrete one-sector input (flat 1000 m, goal 3600 s,
no rest stops; the clamp is inactive). -/
theorem budget_conserved_witness :
    |((calculateRacePlan [⟨1, 0, 1000, 0, 0, 0, 0, 0, []⟩] 3600 [] .metric).getD
        ((calculateRacePlan [⟨1, 0, 1000, 0, 0, 0, 0, 0, []⟩] 3600 [] .metric).length - 1)
          planned0).accumulatedTimeSeconds - 3600| ≤ 1/1000 :=
  budget_conserved [⟨1, 0, 1000, 0, 0, 0, 0, 0, []⟩] 3600 [] .metric
    (by simp)
    (by
      intro j hj
      have hj0 : j = 0 := by
        simp only [List.length_cons, List.length_nil] at hj
        omega
      subst hj0
      norm_num)
    (by
      intro s hs
      simp only [List.mem_cons, List.not_mem_nil, or_false] at hs
      subst hs
      norm_num)
    (by norm_num [totalStoppedTime, sectorStopHere, List.foldl])
    (by
      intro i hi
      have hi0 : i = 0 := by
        simp only [List.length_cons, List.length_nil] at hi
        omega
      subst hi0
      norm_num [sectorRunTimeClamped, sectorRunTimeRaw, runBudget, totalStoppedTime,
        sectorStopHere, stationAssignments, avgPacePerMeter, allocatedWeight,
        totalAllocatedWeight, rawFactors, performanceFactor, strategyOf, fatigueOf,
        relativeFatigue, cumEffort, totalEffortUnits, effortUnits, costMultiplier,
        getMetabolicCost, getTechnicalityPenalty, totalDistOf, jsOr, smoothedFactor,
        List.range_succ, List.foldl, List.getElem?_cons_succ, List.getElem?_cons_zero])

/-! ## Claim C3: the haversine intermediate lies in [0,1], the distance is
non-negative, and the computation coincides with its clamped refinement -/

theorem haversine_le_one (lat1 lon1 lat2 lon2 : ℝ) :
    haversineIntermediate lat1 lon1 lat2 lon2 ≤ 1 := by
  unfold haversineIntermediate deg2rad
  have hAB : (lat2 - lat1) * (Real.pi / 180) =
      lat2 * (Real.pi / 180) - lat1 * (Real.pi / 180) := by ring
  rw [hAB]
  set A := lat1 * (Real.pi / 180)
  set B := lat2 * (Real.pi / 180)
  set y := (lon2 - lon1) * (Real.pi / 180) / 2
  set P := Real.sin ((B - A) / 2) * Real.sin ((B - A) / 2) with hPdef
  set Q := Real.cos A * Real.cos B with hQdef
  set s := Real.sin y * Real.sin y with hsdef
  have hs0 : 0 ≤ s := mul_self_nonneg _
  have hs1 : s ≤ 1 := by
    nlinarith [Real.sin_le_one y, Real.neg_one_le_sin y]
  have hP1 : P ≤ 1 := by
    nlinarith [Real.sin_le_one ((B - A) / 2), Real.neg_one_le_sin ((B - A) / 2)]
  have hPval : P = (1 - Real.cos (B - A)) / 2 := by
    have hc := Real.cos_sq ((B - A) / 2)
    have hp := Real.sin_sq_add_cos_sq ((B - A) / 2)
    have h2 : 2 * ((B - A) / 2) = B - A := by ring
    rw [h2] at hc
    nlinarith [hc, hp]
  have hcos_sub : Real.cos (B - A) = Real.cos B * Real.cos A + Real.sin B * Real.sin A :=
    Real.cos_sub B A
  have hcos_add : Real.cos (A + B) = Real.cos A * Real.cos B - Real.sin A * Real.sin B :=
    Real.cos_add A B
  have hc1 : Real.cos (A + B) ≤ 1 := Real.cos_le_one _
  have hPQ : P + Q ≤ 1 := by
    rw [hPval, hQdef]
    nlinarith
  nlinarith [mul_nonneg (sub_nonneg.mpr hs1) (sub_nonneg.mpr hP1),
    mul_nonneg hs0 (sub_nonneg.mpr hPQ)]

theorem haversine_nonneg (lat1 lon1 lat2 lon2 : ℝ)
    (h1 : |lat1| ≤ 90) (h2 : |lat2| ≤ 90) :
    0 ≤ haversineIntermediate lat1 lon1 lat2 lon2 := by
  unfold haversineIntermediate deg2rad
  rw [abs_le] at h1 h2
  have hpi := Real.pi_pos
  have hcos1 : 0 ≤ Real.cos (lat1 * (Real.pi / 180)) := by
    apply Real.cos_nonneg_of_mem_Icc
    constructor <;> nlinarith [h1.1, h1.2]
  have hcos2 : 0 ≤ Real.cos (lat2 * (Real.pi / 180)) := by
    apply Real.cos_nonneg_of_mem_Icc
    constructor <;> nlinarith [h2.1, h2.2]
  have hs1 := mul_self_nonneg (Real.sin ((lat2 - lat1) * (Real.pi / 180) / 2))
  have hs2 := mul_self_nonneg (Real.sin ((lon2 - lon1) * (Real.pi / 180) / 2))
  positivity

theorem atan2_nonneg (y x : ℝ) (hy : 0 ≤ y) : 0 ≤ atan2 y x := by
  unfold atan2
  exact Complex.arg_nonneg_iff.mpr (by simpa using hy)

/-- C3: for every pair of valid coordinates (|latitude| ≤ 90°, any
longitudes — identical and antipodal points included) the haversine
intermediate provably lies in [0,1] in exact real arithmetic, so the source's
unclamped computation coincides with the claim's clamped refinement
`getDistanceClampedSpec`, and the returned distance is a well-defined,
non-negative (finite) real number. -/
theorem distance_eq_clamped_and_nonneg (lat1 lon1 lat2 lon2 : ℝ)
    (h1 : |lat1| ≤ 90) (h2 : |lat2| ≤ 90) :
    getDistanceFromLatLonInMeters lat1 lon1 lat2 lon2 =
      getDistanceClampedSpec lat1 lon1 lat2 lon2 ∧
    0 ≤ getDistanceFromLatLonInMeters lat1 lon1 lat2 lon2 := by
  have hle := haversine_le_one lat1 lon1 lat2 lon2
  have hge := haversine_nonneg lat1 lon1 lat2 lon2 h1 h2
  constructor
  · unfold getDistanceFromLatLonInMeters getDistanceClampedSpec
    rw [min_eq_right hle, max_eq_right hge]
  · unfold getDistanceFromLatLonInMeters
    have hat := atan2_nonneg (Real.sqrt (haversineIntermediate lat1 lon1 lat2 lon2))
      (Real.sqrt (1 - haversineIntermediate lat1 lon1 lat2 lon2)) (Real.sqrt_nonneg _)
    have h6 : (0:ℝ) ≤ 6371e3 := by norm_num
    nlinarith

/-- Witness for C3 at the concrete coordinates (45°, 0°) and (-45°, 90°). -/
theorem distance_eq_clamped_and_nonneg_witness :
    getDistanceFromLatLonInMeters 45 0 (-45) 90 =
      getDistanceClampedSpec 45 0 (-45) 90 ∧
    0 ≤ getDistanceFromLatLonInMeters 45 0 (-45) 90 :=
  distance_eq_clamped_and_nonneg 45 0 (-45) 90 (by norm_num) (by norm_num)

end RacePlanner
